import Mathlib

/-!
Verification development for the kdam progress-bar library
(files src/std_bar.rs, src/styles/format.rs, src/thread/monitor.rs).

Shallow embedding conventions:
* Rust u64 and usize values are modelled as Nat, i16 values as Int.
  Wrapping integer casts that occur in the source are made explicit
  (wrapI16, i16ToUsize); counter addition is modelled on Nat, since no
  claim concerns u64 wrap-around of the counter itself.
* Rust f64 values are modelled as exact rationals.  Division by zero
  yields 0 in this model where IEEE arithmetic would yield an infinity
  or NaN; no claim depends on the value produced in that situation
  (IEEE f64 division never raises an arithmetic fault, matching the
  totality of the rational model).  Decimal formatting of floats is
  modelled on the exact rational value, rounding ties half-up; no claim
  exercises a tie.
* std::time::Instant is modelled by passing the current time (seconds
  since an arbitrary epoch, as a rational) into every operation that
  reads the clock; the stored timer is the instant recorded at start.
* Code paths that can panic (slice/char-index unwraps) are modelled
  with Option; none means the Rust original would have panicked.
-/

namespace Kdam

/-- Rust cast of an i16 value to usize: sign-extension to 64 bits. -/
def i16ToUsize (x : Int) : Nat := (x % (2 ^ 64 : Int)).toNat

/-- Two's-complement wrap of an integer into the i16 range. -/
def wrapI16 (x : Int) : Int := (x + 2 ^ 15) % 2 ^ 16 - 2 ^ 15

/-- Truncation of a rational toward zero, as Rust float-to-int casts do. -/
def truncRat (q : ℚ) : Int := Int.tdiv q.num (q.den : Int)

/-- Rust saturating cast of an f64 (modelled as a rational) to u64. -/
def u64OfRat (q : ℚ) : Nat := (min (truncRat q) (2 ^ 64 - 1)).toNat

/-- Rust saturating cast of an f64 (modelled as a rational) to i16. -/
def i16OfRat (q : ℚ) : Int := max (-(2 ^ 15)) (min (2 ^ 15 - 1) (truncRat q))

/-- Model of str::repeat. -/
def strRepeat (s : String) : Nat → String
  | 0 => ""
  | k + 1 => s ++ strRepeat s k

/-- A run of spaces, as produced by " ".repeat in the source. -/
def spaces (n : Nat) : String := strRepeat " " n

/-- src/styles/format.rs: floor division and modulus of two values. -/
def divmod (x y : Nat) : Nat × Nat := (x / y, x % y)

/-- Zero-padded two-digit decimal rendering, the Rust format spec 02. -/
def pad2 (n : Nat) : String := if n < 10 then "0" ++ toString n else toString n

/-- Decimal rendering of a rational with two fractional digits (Rust
float formatting with precision 2); ties round half-up on the
magnitude, which no claim exercises. -/
def formatFixed2 (q : ℚ) : String :=
  let sign := if q < 0 then "-" else ""
  let cents : Int := (|q| * 100 + 1 / 2).floor
  let c : Nat := cents.toNat
  sign ++ toString (c / 100) ++ "." ++ pad2 (c % 100)

/-- Decimal rendering of a rational with one fractional digit (Rust
float formatting with precision 1). -/
def formatFixed1 (q : ℚ) : String :=
  let sign := if q < 0 then "-" else ""
  let tenths : Int := (|q| * 10 + 1 / 2).floor
  let t : Nat := tenths.toNat
  sign ++ toString (t / 10) ++ "." ++ toString (t % 10)

/-- Decimal rendering of a rational with no fractional digits (Rust
float formatting with precision 0). -/
def formatFixed0 (q : ℚ) : String :=
  let sign := if q < 0 then "-" else ""
  sign ++ toString (|q| + 1 / 2).floor.toNat

/-- Loop body of format_sizeof: walk the SI magnitude suffixes,
dividing by the divisor until the value fits below 999.5. -/
def format_sizeof_aux (divisor : ℚ) : List String → ℚ → String
  | [], value => formatFixed1 value ++ "Y"
  | i :: rest, value =>
    if |value| < (1999 : ℚ) / 2 then
      if |value| < (1999 : ℚ) / 20 then
        if |value| < (1999 : ℚ) / 200 then formatFixed2 value ++ i
        else formatFixed1 value ++ i
      else formatFixed0 value ++ i
    else format_sizeof_aux divisor rest (value / divisor)

/-- src/styles/format.rs: formats a number (greater than unity) with SI
order of magnitude prefixes. -/
def format_sizeof (num divisor : ℚ) : String :=
  format_sizeof_aux divisor ["", "k", "M", "G", "T", "P", "E", "Z"] num

/-- src/styles/format.rs: formats a number of seconds as a clock time. -/
def format_interval (seconds : Nat) (human : Bool) : String :=
  if human ∧ seconds < 60 then toString seconds ++ "s"
  else
    let ms := divmod seconds 60
    let hm := divmod ms.1 60
    if hm.1 = 0 then pad2 hm.2 ++ ":" ++ pad2 ms.2
    else pad2 hm.1 ++ ":" ++ pad2 hm.2 ++ ":" ++ pad2 ms.2

/-- Modelled from the spec: the built-in charset presets of
crate::styles are opaque configuration data (out of scope, not under
src/).  TQDMCHARSET is the smooth-block family: seven intermediate
eighth-block glyphs plus one full-block glyph (list length 8, matching
the default charset_len of 8 in std_bar.rs). -/
def TQDMCHARSET : List String :=
  ["▏", "▎", "▍", "▌", "▋", "▊", "▉", "█"]

/-- Modelled from the spec: the ASCII charset preset; std_bar.rs
documents it as the characters 123456789#. -/
def TQDMASCIICHARSET : List String :=
  ["1", "2", "3", "4", "5", "6", "7", "8", "9", "#"]

/-- Modelled from the spec: the fill-up block family preset, eight
vertical-eighth glyphs (not under src/). -/
def FILLUPCHARSET : List String :=
  ["▁", "▂", "▃", "▄", "▅", "▆", "▇", "█"]

/-- Modelled from the spec: the classic spinner glyph cycle (opaque
preset, not under src/). -/
def CLASSICSPINNER : List String := ["\\", "|", "/", "-"]

/-- Modelled from the spec: the ligature-font spinner glyph cycle
(opaque preset of private-use glyphs, not under src/). -/
def FIRACODESPINNER : List String :=
  ["", "", "", "", "", ""]

/-- Modelled from the spec: term::COLOUR_RESET, the SGR reset escape
sequence emitted after a coloured glyph run (term module not under
src/). -/
def COLOUR_RESET : String := "\x1b[0m"

/-- Modelled from the spec: term::colour, the colour-name to SGR
escape-code lookup (out of scope, not under src/).  The spec only
requires it to be a deterministic mapping to a colour-start escape;
no claim depends on the concrete escape produced. -/
def term_colour (c : String) : String := "\x1b[" ++ c ++ "m"

/-- src/styles: the closed enumeration of animation families. -/
inductive Animation
  | TqdmAscii
  | Tqdm
  | FillUp
  | Classic
  | Arrow
  | FiraCode
deriving DecidableEq

/-- src/styles: output stream selection. -/
inductive Output
  | Stderr
  | Stdout
deriving DecidableEq

/-- src/std_bar.rs: the internal mutable record of a bar.  The Rust
timer field (std::time::Instant) is the instant at which the timer was
last started, as seconds on the model clock; the Cycle iterator used
for the indefinite-mode spinner is a list plus a position index. -/
structure BarInternal where
  started : Bool
  elapsed_time : ℚ
  its_per : ℚ
  bar_length : Int
  user_ncols : Int
  charset : String
  charset_len : Nat
  timer : ℚ
  force_refresh : Bool
  spinner_list : List String
  spinner_idx : Nat
deriving DecidableEq

/-- src/std_bar.rs: impl Default for BarInternal.  The timer created by
Instant::now() at construction is modelled as the epoch instant 0. -/
def BarInternal.default : BarInternal where
  started := false
  elapsed_time := 0
  its_per := 0
  bar_length := 0
  user_ncols := -1
  charset := String.join TQDMCHARSET
  charset_len := 8
  timer := 0
  force_refresh := false
  spinner_list := CLASSICSPINNER
  spinner_idx := 0

/-- src/std_bar.rs: the progress-bar record.  The file field only needs
to distinguish a configured file sink from none, so it is Option Unit;
the postfix field is named postfixText in the model. -/
structure Bar where
  desc : String
  total : Nat
  leave : Bool
  file : Option Unit
  ncols : Int
  mininterval : ℚ
  miniters : Nat
  dynamic_miniters : Bool
  ascii : Bool
  disable : Bool
  unit : String
  unit_scale : Bool
  dynamic_ncols : Bool
  initial : Nat
  position : Nat
  postfixText : String
  unit_divisor : Nat
  colour : String
  delay : ℚ
  fill : String
  animation : Animation
  output : Output
  max_fps : Bool
  n : Nat
  internal : BarInternal
deriving DecidableEq

/-- src/std_bar.rs: impl Default for Bar. -/
def Bar.default : Bar where
  desc := ""
  total := 0
  leave := true
  file := none
  ncols := 10
  mininterval := 1 / 10
  miniters := 1
  dynamic_miniters := false
  ascii := false
  disable := false
  unit := "it"
  unit_scale := false
  dynamic_ncols := false
  initial := 0
  position := 0
  postfixText := ""
  unit_divisor := 1000
  colour := "default"
  delay := 0
  fill := " "
  animation := Animation.TqdmAscii
  output := Output.Stderr
  max_fps := false
  n := 0
  internal := BarInternal.default

/-- src/std_bar.rs Bar::new. -/
def Bar.new (total : Nat) : Bar := { Bar.default with total := total }

/-- src/std_bar.rs Bar::set_colour. -/
def Bar.set_colour (b : Bar) (colour : String) : Bar :=
  if colour ≠ "default" then { b with colour := term_colour colour }
  else { b with colour := "default" }

/-- src/std_bar.rs Bar::set_charset: joins the glyph slice, records its
length, and switches the animation family to TqdmAscii. -/
def Bar.set_charset (b : Bar) (charset : List String) : Bar :=
  { b with
    internal := { b.internal with
                  charset := String.join charset
                  charset_len := charset.length }
    animation := Animation.TqdmAscii }

/-- src/std_bar.rs Bar::set_description. -/
def Bar.set_description (b : Bar) (desc : String) : Bar := { b with desc := desc }

/-- src/std_bar.rs Bar::set_postfix: prepends a comma-space separator. -/
def Bar.set_postfixText (b : Bar) (p : String) : Bar :=
  { b with postfixText := ", " ++ p }

/-- src/std_bar.rs Bar::init, first statement: re-initialize the
counter to the configured initial value. -/
def Bar.initCounter (b : Bar) : Bar := { b with n := b.initial }

/-- src/std_bar.rs Bar::init, second statement: record a caller-fixed
width as the user width override. -/
def Bar.initNcols (b : Bar) : Bar :=
  if b.ncols ≠ 10 then
    { b with internal := { b.internal with user_ncols := b.ncols } }
  else b

/-- src/std_bar.rs Bar::init, charset/animation resolution chain. -/
def Bar.initCharset (b : Bar) : Bar :=
  if b.ascii then b.set_charset TQDMASCIICHARSET
  else if b.animation = Animation.Tqdm then b.set_charset TQDMCHARSET
  else if b.animation = Animation.FillUp then b.set_charset FILLUPCHARSET
  else if b.animation = Animation.Classic then
    { b with internal := { b.internal with charset := "#" }, fill := "." }
  else if b.animation = Animation.Arrow then
    { b with internal := { b.internal with charset := "=" } }
  else if b.animation = Animation.FiraCode then
    { b with
      internal := { b.internal with
                    charset := ""
                    spinner_list := FIRACODESPINNER
                    spinner_idx := 0 }
      fill := "" }
  else b

/-- src/std_bar.rs Bar::init, final statement: prime the force-refresh
flag in max-fps mode. -/
def Bar.initForce (b : Bar) : Bar :=
  if b.max_fps then { b with internal := { b.internal with force_refresh := true } }
  else b

/-- src/std_bar.rs Bar::init: lazily initialize struct values on the
first update call, in the statement order of the source (counter,
width override, colour resolution, charset resolution, force-refresh
priming). -/
def Bar.init (b0 : Bar) : Bar :=
  ((((b0.initCounter).initNcols).set_colour b0.colour).initCharset).initForce

/-- One step of the cyclic spinner iterator: the element the Cycle
yields at the given position; none when the underlying slice is empty
(where the Rust unwrap would panic). -/
def spinnerNext (l : List String) (idx : Nat) : Option String :=
  l.get? (idx % l.length)

/-- src/std_bar.rs Bar::render_unknown: the indefinite-mode frame for
counter value i.  Takes the current clock reading now; elapsed time is
now minus the stored timer instant.  Returns the updated bar (elapsed
time, rate, advanced spinner) and the frame text. -/
def Bar.render_unknown (b : Bar) (now : ℚ) (i : Nat) : Option (Bar × String) :=
  let desc_spacing := if b.desc = "" then "" else ": "
  let elapsed_time : ℚ := now - b.internal.timer
  let its_per : ℚ := (i : ℚ) / elapsed_time
  let elapsed_time_fmt := format_interval (u64OfRat elapsed_time) false
  let count :=
    if b.unit_scale then format_sizeof (i : ℚ) (b.unit_divisor : ℚ)
    else toString i
  let rate_fmt :=
    if b.unit_scale then format_sizeof (u64OfRat its_per : ℚ) (b.unit_divisor : ℚ)
    else formatFixed2 its_per
  match spinnerNext b.internal.spinner_list b.internal.spinner_idx with
  | none => none
  | some glyph =>
    some
      ({ b with internal := { b.internal with
                              elapsed_time := elapsed_time
                              its_per := its_per
                              spinner_idx := b.internal.spinner_idx + 1 } },
       glyph ++ " " ++ b.desc ++ desc_spacing ++ count ++ " [" ++ elapsed_time_fmt
         ++ ", " ++ rate_fmt ++ b.unit ++ "/s" ++ b.postfixText ++ "]")

/-- src/std_bar.rs Bar::render_lbar: clamped progress fraction and the
left text segment for counter value i.  The fraction i / total is
computed in exact rational arithmetic (the source uses f64). -/
def Bar.render_lbar (b : Bar) (i : Nat) : ℚ × String :=
  let progress0 : ℚ := (i : ℚ) / (b.total : ℚ)
  let progress : ℚ := if 1 ≤ progress0 then 1 else progress0
  let desc_spacing := if b.desc = "" then "" else ": "
  let percentage : Nat := u64OfRat (progress * 100)
  let spacing0 := if 10 ≤ percentage then " " else "  "
  let spacing := if 1 ≤ progress then "" else spacing0
  (progress, b.desc ++ desc_spacing ++ spacing ++ toString percentage ++ "%")

/-- The named fields assembled by Bar::render_rbar. -/
structure RbarParts where
  count : String
  totalStr : String
  elapsedFmt : String
  remainingFmt : String
  rateFmt : String
deriving DecidableEq

/-- src/std_bar.rs Bar::render_rbar, field computation for counter
value i at clock reading now.  The u64 subtraction total - i is
modelled with two's-complement wrap (the release-mode Rust semantics);
rate and remaining time are exact rationals, with division by zero
yielding 0 where IEEE would yield an infinity (both the 00:00
remaining-time string and the ? rate marker are forced by the explicit
i == 0 special case, never by that value). -/
def Bar.render_rbar_parts (b : Bar) (now : ℚ) (i : Nat) : RbarParts :=
  let count :=
    if b.unit_scale then format_sizeof (i : ℚ) (b.unit_divisor : ℚ)
    else toString i
  let totalStr :=
    if b.unit_scale then format_sizeof (b.total : ℚ) (b.unit_divisor : ℚ)
    else toString b.total
  let elapsed_time : ℚ := now - b.internal.timer
  let its_per : ℚ := (i : ℚ) / elapsed_time
  let remaining : ℚ := ((((b.total : Int) - (i : Int)) % (2 ^ 64 : Int)).toNat : ℚ) / its_per
  let elapsedFmt := format_interval (u64OfRat elapsed_time) false
  let remainingFmt0 := format_interval (u64OfRat remaining) false
  let rateFmt0 :=
    if b.unit_scale then format_sizeof (u64OfRat its_per : ℚ) (b.unit_divisor : ℚ)
    else formatFixed2 its_per
  { count := count
    totalStr := totalStr
    elapsedFmt := elapsedFmt
    remainingFmt := if i = 0 then "00:00" else remainingFmt0
    rateFmt := if i = 0 then "?" else rateFmt0 }

/-- src/std_bar.rs Bar::render_rbar: updates elapsed time and rate in
the internal state and assembles the right text segment. -/
def Bar.render_rbar (b : Bar) (now : ℚ) (i : Nat) : Bar × String :=
  let p := b.render_rbar_parts now i
  let elapsed_time : ℚ := now - b.internal.timer
  let its_per : ℚ := (i : ℚ) / elapsed_time
  ({ b with internal := { b.internal with
                          elapsed_time := elapsed_time
                          its_per := its_per } },
   " " ++ p.count ++ "/" ++ p.totalStr ++ " [" ++ p.elapsedFmt ++ "<"
     ++ p.remainingFmt ++ ", " ++ p.rateFmt ++ b.unit ++ "/s" ++ b.postfixText ++ "]")

/-- src/std_bar.rs Bar::set_ncols: meter-width resolution.  The
terminal probe term::get_columns (not under src/) is passed in as the
columns argument. -/
def Bar.set_ncols (b : Bar) (columns : Nat) (lbar_rbar_len : Int) : Bar :=
  if b.dynamic_ncols ∨ 0 < lbar_rbar_len + b.ncols + 2 - b.internal.bar_length then
    if b.internal.user_ncols ≠ -1 then { b with ncols := b.internal.user_ncols }
    else if columns ≠ 0 then
      let new_ncols : Int := (columns : Int) - lbar_rbar_len - 3
      if 0 ≤ new_ncols then { b with ncols := new_ncols } else b
    else
      let b := { b with ncols := 10 }
      if ¬ b.dynamic_ncols then
        { b with internal := { b.internal with user_ncols := 10 } }
      else b
  else b

/-- src/std_bar.rs Bar::render_mbar, first match, block-style arm
(shared by the TqdmAscii, Tqdm and FillUp families): sub-character
resolution via divmod of the scaled progress.  none models the panics
of the char-index unwraps on an unsuitable charset. -/
def Bar.blockArm (b : Bar) (progress : ℚ) : Option String :=
  let nsyms : Nat := b.internal.charset_len - 1
  let dm := divmod (u64OfRat (progress * (b.ncols : ℚ) * (nsyms : ℚ))) nsyms
  let bar_length := dm.1
  let frac_bar_length := dm.2
  match b.internal.charset.toList.getLast? with
  | none => none
  | some lastGlyph =>
    let head := strRepeat (String.mk [lastGlyph]) bar_length
    if bar_length < i16ToUsize b.ncols then
      match b.internal.charset.toList.get? (frac_bar_length + 1) with
      | none => none
      | some transitional =>
        some (head ++ String.mk [transitional]
          ++ strRepeat b.fill
              (i16ToUsize (wrapI16 (b.ncols - wrapI16 (bar_length : Int) - 1))))
    else some head

/-- src/std_bar.rs Bar::render_mbar, first match: the glyph run of the
meter (before brackets and colour are applied), by animation family. -/
def Bar.barAnimation (b : Bar) (progress : ℚ) : Option String :=
  match b.animation with
  | Animation.TqdmAscii | Animation.Tqdm | Animation.FillUp =>
    b.blockArm progress
  | Animation.Classic | Animation.FiraCode =>
    let block : Int := i16OfRat ((b.ncols : ℚ) * progress)
    some (strRepeat b.internal.charset (i16ToUsize block)
      ++ strRepeat b.fill (i16ToUsize (wrapI16 (b.ncols - block))))
  | Animation.Arrow =>
    let block : Int := i16OfRat ((b.ncols : ℚ) * progress)
    let base := strRepeat b.internal.charset (i16ToUsize block)
    let x : Int := wrapI16 (b.ncols - block - 1)
    if 0 < x then some (base ++ ">" ++ strRepeat b.fill (i16ToUsize x))
    else some base

/-- src/std_bar.rs Bar::render_mbar: the full meter segment, wrapping
the glyph run in the family brackets and, per the source's branch
structure, the colour escapes.  The FiraCode arm reproduces the
source exactly: it emits the literal colour field followed by the reset
escape when the colour is the default sentinel, and no colour codes
otherwise. -/
def Bar.render_mbar (b : Bar) (progress : ℚ) : Option String :=
  match b.barAnimation progress with
  | none => none
  | some bar_animation =>
    match b.animation with
    | Animation.TqdmAscii | Animation.Tqdm | Animation.FillUp =>
      if b.colour = "default" then some ("|" ++ bar_animation ++ "|")
      else some ("|" ++ b.colour ++ bar_animation ++ COLOUR_RESET ++ "|")
    | Animation.Classic | Animation.Arrow =>
      if b.colour = "default" then some ("[" ++ bar_animation ++ "]")
      else some ("[" ++ b.colour ++ bar_animation ++ COLOUR_RESET ++ "]")
    | Animation.FiraCode =>
      let bar_end := if 1 ≤ progress then "" else ""
      if b.colour = "default" then
        some (b.colour ++ "" ++ bar_animation ++ bar_end ++ COLOUR_RESET)
      else some ("" ++ bar_animation ++ bar_end)

/-- The counter value Bar::render hands to Bar::render_rbar: pinned to
total when the clamped progress fraction is exactly 1. -/
def Bar.renderRbarArg (b : Bar) (i : Nat) : Nat :=
  if (b.render_lbar i).1 = 1 then b.total else i

/-- src/std_bar.rs Bar::render: the three text segments for counter
value i at clock reading now (columns is the terminal-probe result
used by set_ncols).  When progress reaches 1 and leave is false the
source returns early with an erase frame of bar_length spaces, without
invoking render_rbar or the meter. -/
def Bar.render (b : Bar) (now : ℚ) (columns : Nat) (i : Nat) :
    Option (Bar × String × String × String) :=
  let pl := b.render_lbar i
  let progress := pl.1
  let lbar := pl.2
  if progress = 1 ∧ b.leave = false then
    some (b, spaces (i16ToUsize b.internal.bar_length), "", "\r")
  else
    let i2 := b.renderRbarArg i
    let br := b.render_rbar now i2
    let b1 := br.1
    let rbar := br.2
    let b2 := b1.set_ncols columns
      ((("\r" ++ lbar ++ rbar).utf8ByteSize : Int))
    if b2.ncols ≤ 0 then some (b2, lbar, "", rbar)
    else
      match b2.render_mbar progress with
      | none => none
      | some mbar => some (b2, lbar, mbar, rbar)

/-- src/std_bar.rs Bar::update, body of the write branch: optional
dynamic-miniters reset, then render the frame (definite or indefinite
mode) and record the rendered width.  The returned bar reflects the
mutations performed while producing the frame that write_at emits. -/
def Bar.updateWrite (b0 : Bar) (now : ℚ) (columns : Nat) : Option Bar :=
  let b := if b0.dynamic_miniters then { b0 with miniters := 0 } else b0
  if b.total ≠ 0 then
    match b.render now columns b.n with
    | none => none
    | some (b2, lbar, _mbar, rbar) =>
      some { b2 with internal := { b2.internal with
        bar_length :=
          wrapI16 (wrapI16 ((lbar.utf8ByteSize : Int) + (rbar.utf8ByteSize : Int))
            + b2.ncols + 2) } }
  else
    match b.render_unknown now b.n with
    | none => none
    | some (b2, text) =>
      some { b2 with internal := { b2.internal with
        bar_length := wrapI16 (text.utf8ByteSize : Int) } }

/-- src/std_bar.rs Bar::update, start-up stage: on the first call
(started still false) run init, restart the timer at now and set the
started flag, so the elapsed reading of this call is 0. -/
def Bar.updateStart (b0 : Bar) (now : ℚ) : Bar :=
  if b0.internal.started = false then
    let bi := b0.init
    { bi with internal := { bi.internal with timer := now, started := true } }
  else b0

/-- src/std_bar.rs Bar::update, everything after the start-up stage:
increment the counter, then evaluate the throttle gates and write a
frame when they allow it. -/
def Bar.updateCore (b1 : Bar) (amount : Nat) (now : ℚ) (columns : Nat) :
    Option (Bar × Bool) :=
  let b := { b1 with n := b1.n + amount }
  if b.disable then some (b, false)
  else
    let elapsed_time_now : ℚ := now - b.internal.timer
    let mininterval_constraint : Bool :=
      decide (b.mininterval ≤ elapsed_time_now - b.internal.elapsed_time)
    let b :=
      if b.dynamic_miniters ∧ mininterval_constraint = false then
        { b with miniters := b.miniters + amount }
      else b
    let miniters_constraint : Bool :=
      if b.miniters ≤ 1 then true else decide (b.n % b.miniters = 0)
    if (mininterval_constraint = true ∧ miniters_constraint = true
          ∧ b.delay ≤ elapsed_time_now)
        ∨ b.n = b.total ∨ b.internal.force_refresh = true then
      match b.updateWrite now columns with
      | none => none
      | some b2 => some (b2, true)
    else some (b, false)

/-- src/std_bar.rs Bar::update at clock reading now, with columns the
terminal-probe result consulted if a frame is rendered: the start-up
stage followed by the increment/throttle/write stage.  Returns the
updated bar and whether a frame was rendered and written. -/
def Bar.update (b0 : Bar) (amount : Nat) (now : ℚ) (columns : Nat) :
    Option (Bar × Bool) :=
  (b0.updateStart now).updateCore amount now columns

/-- src/std_bar.rs Bar::clear: the bytes written to the output stream
(none when a file sink is configured, in which case clear is a no-op).
columns is the fresh term::get_columns probe result. -/
def Bar.clear (b : Bar) (columns0 : Nat) : Option String :=
  if b.file = none then
    let columns := if columns0 = 0 then i16ToUsize b.internal.bar_length else columns0
    some ("\r" ++ spaces columns ++ "\r")
  else none

/-- src/std_bar.rs Bar::refresh: set the force flag, update by 0,
clear the force flag. -/
def Bar.refresh (b : Bar) (now : ℚ) (columns : Nat) : Option (Bar × Bool) :=
  let b1 := { b with internal := { b.internal with force_refresh := true } }
  match b1.update 0 now columns with
  | none => none
  | some (b2, w) =>
    some ({ b2 with internal := { b2.internal with force_refresh := false } }, w)

/-- src/std_bar.rs Bar::reset: clears the started flag (so the next
update re-initializes) and optionally installs a new total. -/
def Bar.reset (b : Bar) (total : Option Nat) : Bar :=
  let b1 := { b with internal := { b.internal with started := false } }
  match total with
  | some t => { b1 with total := t }
  | none => b1

/-- src/std_bar.rs Bar::write: clear, print the message to stdout,
then redraw via refresh when the leave policy is set.  Only the bar
state evolution is modelled here. -/
def Bar.writeMessage (b : Bar) (now : ℚ) (columns : Nat) : Option Bar :=
  if b.leave then
    match b.refresh now columns with
    | none => none
    | some (b2, _) => some b2
  else some b

/-- src/std_bar.rs Bar::input, successful-read path: clear, prompt,
read a line, then redraw via refresh when the leave policy is set.
The line read is returned unchanged to the caller; only the bar state
evolution is modelled here. -/
def Bar.inputModel (b : Bar) (now : ℚ) (columns : Nat) : Option Bar :=
  if b.leave then
    match b.refresh now columns with
    | none => none
    | some (b2, _) => some b2
  else some b

/-- src/std_bar.rs Bar::set_position: overwrite the counter with an
absolute value and update by 0. -/
def Bar.set_position (b : Bar) (pos : Nat) (now : ℚ) (columns : Nat) : Option Bar :=
  match Bar.update { b with n := pos } 0 now columns with
  | none => none
  | some (b2, _) => some b2

/-- Modelled from the spec: Bar::completed, the completion predicate of
the thread monitor (src/thread/monitor.rs calls pb.completed(), whose
definition is not under src/); the spec defines it as n == total. -/
def Bar.completed (b : Bar) : Bool := b.n == b.total

/-- src/thread/monitor.rs monitor::bar, one wake-up of the spawned
loop: after sleeping, the task locks the shared bar, exits when the
completion predicate holds, and otherwise forces a refresh.  Returns
the bar after the wake-up and whether the loop exited. -/
def monitorBarWake (b : Bar) (now : ℚ) (columns : Nat) : Option (Bar × Bool) :=
  if b.completed then some (b, true)
  else
    match b.refresh now columns with
    | none => none
    | some (b2, _) => some (b2, false)

/-- src/std_bar.rs Bar::monitor, the loop guard: the loop continues
while n differs from total, so a wake-up round begins only when this
is false. -/
def Bar.stdMonitorExit (b : Bar) : Bool := b.n == b.total

/-- src/std_bar.rs Bar::monitor, one non-exiting wake-up of the loop
body with loop-local snapshot n: after sleeping, refresh only when the
counter still equals the snapshot, otherwise just record the new
counter value.  Returns the bar, the new snapshot, and whether a
refresh was performed. -/
def Bar.stdMonitorWake (b : Bar) (snapshot : Nat) (now : ℚ) (columns : Nat) :
    Option (Bar × Nat × Bool) :=
  if b.n = snapshot then
    match b.refresh now columns with
    | none => none
    | some (b2, _) => some (b2, snapshot, true)
  else some (b, b.n, false)

/-- The public operations of C3's claim, with every external
interaction (clock readings, terminal-probe results, the line read by
input) supplied as operation data. -/
inductive Op
  | updateOp (amount : Nat) (now : ℚ) (columns : Nat)
  | refreshOp (now : ℚ) (columns : Nat)
  | clearOp (columns : Nat)
  | writeOp (text : String) (now : ℚ) (columns : Nat)
  | inputOp (prompt line : String) (now : ℚ) (columns : Nat)
  | setPositionOp (pos : Nat) (now : ℚ) (columns : Nat)
  | setDescriptionOp (desc : String)
  | setPostfixOp (p : String)
  | setColourOp (c : String)
  | setCharsetOp (cs : List String)
  | monitorTickOp (snapshot : Nat) (now : ℚ) (columns : Nat)
  | resetOp (total : Option Nat)

/-- Whether an operation is the set-absolute-position operation. -/
def Op.isSetPositionOp : Op → Bool
  | Op.setPositionOp _ _ _ => true
  | _ => false

/-- The state evolution of one public operation on a bar. -/
def step (b : Bar) : Op → Option Bar
  | Op.updateOp a now cols =>
    match b.update a now cols with
    | none => none
    | some (b2, _) => some b2
  | Op.refreshOp now cols =>
    match b.refresh now cols with
    | none => none
    | some (b2, _) => some b2
  | Op.clearOp _ => some b
  | Op.writeOp _ now cols => b.writeMessage now cols
  | Op.inputOp _ _ now cols => b.inputModel now cols
  | Op.setPositionOp pos now cols => b.set_position pos now cols
  | Op.setDescriptionOp d => some (b.set_description d)
  | Op.setPostfixOp p => some (b.set_postfixText p)
  | Op.setColourOp c => some (b.set_colour c)
  | Op.setCharsetOp cs => some (b.set_charset cs)
  | Op.monitorTickOp snap now cols =>
    match b.stdMonitorWake snap now cols with
    | none => none
    | some (b2, _, _) => some b2
  | Op.resetOp t => some (b.reset t)

/-! ## Claim theorems -/

/-- C7: format_interval(0, false) = "00:00", format_interval(3661,
false) = "01:01:01", and format_interval(59, true) = "59s"; in general
the non-human output is the zero-padded minutes and seconds obtained by
floor division and modulus by 60, prefixed by the zero-padded hour
count exactly when the hour part is nonzero. -/
theorem c7_format_interval_clock :
    format_interval 0 false = "00:00" ∧
    format_interval 3661 false = "01:01:01" ∧
    format_interval 59 true = "59s" ∧
    ∀ s : Nat,
      format_interval s false =
        if s / 60 / 60 = 0 then pad2 (s / 60 % 60) ++ ":" ++ pad2 (s % 60)
        else pad2 (s / 60 / 60) ++ ":" ++ pad2 (s / 60 % 60) ++ ":" ++ pad2 (s % 60) := by
  refine ⟨by decide, by decide, by decide, fun s => ?_⟩
  simp [format_interval, divmod]

/-- The clamped progress fraction of render_lbar lies in [0, 1]
unconditionally. -/
lemma render_lbar_progress_bounds (b : Bar) (i : Nat) :
    0 ≤ (b.render_lbar i).1 ∧ (b.render_lbar i).1 ≤ 1 := by
  simp only [Bar.render_lbar]
  by_cases h : (1 : ℚ) ≤ (i : ℚ) / (b.total : ℚ)
  · simp [h]
  · simp only [if_neg h]
    exact ⟨div_nonneg (Nat.cast_nonneg i) (Nat.cast_nonneg b.total), le_of_not_le h⟩

/-- For a positive total, the clamped progress fraction is exactly 1
precisely when the counter has reached the total. -/
lemma render_lbar_progress_eq_one_iff (b : Bar) (i : Nat) (h : 0 < b.total) :
    (b.render_lbar i).1 = 1 ↔ b.total ≤ i := by
  have htot : (0 : ℚ) < (b.total : ℚ) := by exact_mod_cast h
  have hdiv : (1 : ℚ) ≤ (i : ℚ) / (b.total : ℚ) ↔ b.total ≤ i := by
    rw [one_le_div htot]
    exact_mod_cast Iff.rfl
  simp only [Bar.render_lbar]
  by_cases h1 : (1 : ℚ) ≤ (i : ℚ) / (b.total : ℚ)
  · simpa [h1] using hdiv.mp h1
  · simp only [if_neg h1]
    constructor
    · intro he
      exact absurd (le_of_eq he.symm) h1
    · intro hle
      exact absurd (hdiv.mpr hle) h1

/-- C9: for a bar with positive total, render_rbar at counter value 0
renders the remaining-time field as the zero-duration string 00:00 and
the rate field as the unknown marker ?, by the explicit i == 0 special
case; the divisions in render_rbar and render_unknown are total in the
model (as IEEE f64 division is in the source), so no arithmetic fault
is ever propagated. -/
theorem c9_rbar_zero_special_case (b : Bar) (now : ℚ) (_h : 0 < b.total) :
    (b.render_rbar_parts now 0).remainingFmt = "00:00" ∧
    (b.render_rbar_parts now 0).rateFmt = "?" := by
  constructor <;> simp [Bar.render_rbar_parts]

/-- C9 witness at a concrete bar. -/
theorem c9_rbar_zero_special_case_witness :
    ((Bar.new 100).render_rbar_parts 0 0).remainingFmt = "00:00" ∧
    ((Bar.new 100).render_rbar_parts 0 0).rateFmt = "?" :=
  c9_rbar_zero_special_case (Bar.new 100) 0 (by decide)

/-- C10: for a bar with a positive total in the u64 range, the counter
value render hands to render_rbar never exceeds the total (render pins
it to total exactly when the clamped fraction is 1), so the u64
subtraction total - i inside render_rbar never wraps: the
two's-complement model of that subtraction agrees with the exact
difference. -/
theorem c10_render_rbar_arg_le_total (b : Bar) (i : Nat) (h : 0 < b.total)
    (hrange : b.total < 2 ^ 64) :
    b.renderRbarArg i ≤ b.total ∧
    (((b.total : Int) - (b.renderRbarArg i : Int)) % (2 ^ 64 : Int)).toNat
      = b.total - b.renderRbarArg i := by
  have harg : b.renderRbarArg i ≤ b.total := by
    unfold Bar.renderRbarArg
    by_cases h1 : (b.render_lbar i).1 = 1
    · simp [h1]
    · simp only [if_neg h1]
      have := (not_iff_not.mpr (render_lbar_progress_eq_one_iff b i h)).mp h1
      omega
  refine ⟨harg, ?_⟩
  have h1 : ((b.total : Int) - (b.renderRbarArg i : Int))
      = ((b.total - b.renderRbarArg i : Nat) : Int) := by
    omega
  rw [h1, Int.emod_eq_of_lt (by positivity) (by exact_mod_cast by omega)]
  exact Int.toNat_natCast _

/-- C10 witness at a concrete bar and counter value. -/
theorem c10_render_rbar_arg_le_total_witness :
    (Bar.new 100).renderRbarArg 250 ≤ (Bar.new 100).total ∧
    ((((Bar.new 100).total : Int) - ((Bar.new 100).renderRbarArg 250 : Int))
        % (2 ^ 64 : Int)).toNat
      = (Bar.new 100).total - (Bar.new 100).renderRbarArg 250 :=
  c10_render_rbar_arg_le_total (Bar.new 100) 250 (by decide) (by decide)

/-- C1 counterexample: for a bar with total 5 and leave set to false,
at counter value 5 the fraction is exactly 1, yet render returns the
erase frame (spaces and a carriage return) without calling
render_rbar, so the frame does not display the total as the count:
its right segment is a bare carriage return, not the render_rbar
output at the total. -/
theorem c1_leave_false_counterexample :
    Bar.render { Bar.default with total := 5, leave := false } 1 0 5
      = some ({ Bar.default with total := 5, leave := false }, "", "", "\r") ∧
    (Bar.render_rbar { Bar.default with total := 5, leave := false } 1 5).2
      = " 5/5 [00:01<00:00, 5.00it/s]" ∧
    ("\r" : String) ≠ " 5/5 [00:01<00:00, 5.00it/s]" := by
  refine ⟨?_, ?_, by decide⟩
  · set_option maxRecDepth 4000 in
    norm_num [Bar.render, Bar.render_lbar, Bar.default, BarInternal.default,
      spaces, strRepeat, i16ToUsize]
  · norm_num [Bar.render_rbar, Bar.render_rbar_parts, Bar.default, BarInternal.default,
      format_interval, divmod, pad2, u64OfRat, truncRat, formatFixed2, Rat.floor_def']
    decide

/-- C1 (amended): for every bar with positive total, the clamped
progress fraction of render_lbar lies in [0, 1] and is exactly 1
whenever the counter has reached the total; whenever the fraction is 1
and the leave policy is set, every frame render produces has the
render_rbar output at i replaced by total as its right segment,
regardless of the counter's exact value; when the fraction is 1 and
leave is false, render instead returns the erase frame of bar_length
spaces plus a carriage return, displaying no count. -/
theorem c1_progress_clamp_and_completion_pin (b : Bar) (i : Nat) (now : ℚ)
    (columns : Nat) (h : 0 < b.total) :
    (0 ≤ (b.render_lbar i).1 ∧ (b.render_lbar i).1 ≤ 1) ∧
    (b.total ≤ i → (b.render_lbar i).1 = 1) ∧
    ((b.render_lbar i).1 = 1 → b.leave = true →
      ∀ r, b.render now columns i = some r →
        r.2.2.2 = (b.render_rbar now b.total).2) ∧
    ((b.render_lbar i).1 = 1 → b.leave = false →
      b.render now columns i
        = some (b, spaces (i16ToUsize b.internal.bar_length), "", "\r")) := by
  refine ⟨render_lbar_progress_bounds b i,
    fun hi => (render_lbar_progress_eq_one_iff b i h).mpr hi, ?_, ?_⟩
  · intro hpr hleave r hr
    simp only [Bar.render, Bar.renderRbarArg, hpr, hleave] at hr
    norm_num at hr
    split at hr
    · cases hr
      rfl
    · split at hr
      · cases hr
      · cases hr
        rfl
  · intro hpr hleave
    simp only [Bar.render, hpr, hleave]
    norm_num

/-- C1 witness at a concrete bar and counter value. -/
theorem c1_progress_clamp_and_completion_pin_witness :
    (0 ≤ ((Bar.new 5).render_lbar 7).1 ∧ ((Bar.new 5).render_lbar 7).1 ≤ 1) ∧
    ((Bar.new 5).total ≤ 7 → ((Bar.new 5).render_lbar 7).1 = 1) ∧
    (((Bar.new 5).render_lbar 7).1 = 1 → (Bar.new 5).leave = true →
      ∀ r, (Bar.new 5).render 1 0 7 = some r →
        r.2.2.2 = ((Bar.new 5).render_rbar 1 (Bar.new 5).total).2) ∧
    (((Bar.new 5).render_lbar 7).1 = 1 → (Bar.new 5).leave = false →
      (Bar.new 5).render 1 0 7
        = some (Bar.new 5, spaces (i16ToUsize (Bar.new 5).internal.bar_length),
            "", "\r")) :=
  c1_progress_clamp_and_completion_pin (Bar.new 5) 7 1 0 (by decide)

/-- C5 counterexample: with a recorded rendered width of 20 and a
terminal probe reporting 80 columns, clear writes 80 spaces (the probe
result), not the 20 spaces the claim predicts from the last known
rendered width. -/
theorem c5_clear_counterexample :
    Bar.clear { Bar.default with
        internal := { BarInternal.default with bar_length := 20 } } 80
      = some ("\r" ++ spaces 80 ++ "\r") ∧
    ("\r" ++ spaces 80 ++ "\r" : String) ≠ "\r" ++ spaces 20 ++ "\r" := by
  refine ⟨by simp [Bar.clear, Bar.default, BarInternal.default], by decide⟩

/-- C5 (amended): for every bar without a file sink, clear writes a
carriage return, then spaces, then a carriage return, where the number
of spaces is the fresh terminal-width probe result, falling back to
the last known rendered width (internal.bar_length) only when the
probe reports width 0. -/
theorem c5_clear_overwrite (b : Bar) (columns : Nat) (h : b.file = none) :
    b.clear columns
      = some ("\r"
          ++ spaces (if columns = 0 then i16ToUsize b.internal.bar_length else columns)
          ++ "\r") := by
  simp [Bar.clear, h]

/-- C5 witness at a concrete bar. -/
theorem c5_clear_overwrite_witness :
    Bar.default.clear 0
      = some ("\r"
          ++ spaces (if (0 : Nat) = 0 then i16ToUsize Bar.default.internal.bar_length
              else 0)
          ++ "\r") :=
  c5_clear_overwrite Bar.default 0 rfl

/-- C4 evidence: the FiraCode arm of render_mbar inverts the colour
branches.  With a real colour set (here an SGR green escape) the meter
segment contains no colour codes at all, and with the default
no-colour sentinel the segment contains the literal text default
followed by the glyph run and the colour-reset escape. -/
theorem c4_firacode_colour_branches_inverted :
    Bar.render_mbar { Bar.default with
        animation := Animation.FiraCode
        colour := "\x1b[32m"
        ncols := 2
        internal := { BarInternal.default with charset := "" }
        fill := "" } (1 / 2)
      = some "" ∧
    Bar.render_mbar { Bar.default with
        animation := Animation.FiraCode
        colour := "default"
        ncols := 2
        internal := { BarInternal.default with charset := "" }
        fill := "" } (1 / 2)
      = some ("default" ++ "" ++ COLOUR_RESET) := by
  constructor <;>
    · norm_num [Bar.render_mbar, Bar.barAnimation, Bar.default, BarInternal.default,
        i16OfRat, truncRat, wrapI16, i16ToUsize, strRepeat, COLOUR_RESET]
      decide

/-- C6 spec-side definition, written from the claim's words: with
(full_blocks, remainder) = divmod(floor(progress * ncols * nsyms),
nsyms), emit full_blocks copies of the last (full-block) glyph of the
charset and, exactly when full_blocks < ncols, one transitional glyph
at charset index remainder + 1 followed by ncols - full_blocks - 1
copies of the fill character. -/
def specBlockMeter (charset fill : String) (ncols nsyms : Nat) (progress : ℚ) : String :=
  let dm := divmod (Rat.floor (progress * (ncols : ℚ) * (nsyms : ℚ))).toNat nsyms
  let full_blocks := dm.1
  let remainder := dm.2
  strRepeat (String.mk [charset.toList.getLastD ' ']) full_blocks
    ++ (if full_blocks < ncols then
          String.mk [charset.toList.getD (remainder + 1) ' ']
            ++ strRepeat fill (ncols - full_blocks - 1)
        else "")

/-- The bracket and colour wrap of the block-style families. -/
def blockBracketWrap (colour s : String) : String :=
  if colour = "default" then "|" ++ s ++ "|"
  else "|" ++ colour ++ s ++ COLOUR_RESET ++ "|"

/-- Rat.floor is the floor of the FloorRing instance on ℚ. -/
lemma ratFloor_eq_intFloor (q : ℚ) : Rat.floor q = ⌊q⌋ :=
  (Rat.floor_def' q).trans Rat.floor_def.symm

/-- The i16-to-usize cast is the identity on small nonnegative values. -/
lemma i16ToUsize_small {x : Int} (h0 : 0 ≤ x) (h1 : x < 2 ^ 64) :
    i16ToUsize x = x.toNat := by
  unfold i16ToUsize
  rw [Int.emod_eq_of_lt h0 h1]

/-- Wrapping into the i16 range is the identity inside the range. -/
lemma wrapI16_small {x : Int} (h0 : -(2 ^ 15) ≤ x) (h1 : x < 2 ^ 15) :
    wrapI16 x = x := by
  unfold wrapI16
  rw [Int.emod_eq_of_lt (by omega) (by omega)]
  omega

/-- Truncation toward zero agrees with floor on nonnegative rationals. -/
lemma truncRat_eq_floor {q : ℚ} (h : 0 ≤ q) : truncRat q = ⌊q⌋ := by
  unfold truncRat
  rw [Int.tdiv_eq_ediv (Rat.num_nonneg.mpr h) (Int.natCast_nonneg _)]
  exact Rat.floor_def.symm

/-- The saturating u64 cast does not saturate below 2^64 - 1. -/
lemma u64OfRat_of_le {q : ℚ} (h0 : 0 ≤ q) (h1 : q ≤ ((2 ^ 64 - 1 : Nat) : ℚ)) :
    u64OfRat q = ⌊q⌋.toNat := by
  unfold u64OfRat
  rw [truncRat_eq_floor h0]
  have hcast : (((2 ^ 64 - 1 : Nat) : Int) : ℚ) = ((2 ^ 64 - 1 : Nat) : ℚ) := by
    push_cast
    norm_num
  have hle : ⌊q⌋ ≤ ((2 ^ 64 - 1 : Nat) : Int) := by
    have := Int.floor_le_floor (α := ℚ) (hcast ▸ h1)
    rwa [Int.floor_intCast] at this
  rw [min_eq_left (by exact_mod_cast hle)]

/-- The block-style arm of render_mbar computes exactly the claim's
divmod rendering rule, under the intended side conditions (positive
meter width in the i16 range, charset length consistent with the
recorded charset_len, at least one sub-character resolution level, and
a progress fraction in [0, 1]). -/
lemma blockArm_eq_specBlockMeter (b : Bar) (progress : ℚ)
    (hn0 : 0 < b.ncols) (hn1 : b.ncols < 2 ^ 15)
    (hlen : b.internal.charset_len = b.internal.charset.length)
    (h2 : 2 ≤ b.internal.charset_len) (hup : b.internal.charset_len ≤ 2 ^ 32)
    (hp0 : 0 ≤ progress) (hp1 : progress ≤ 1) :
    b.blockArm progress
      = some (specBlockMeter b.internal.charset b.fill b.ncols.toNat
          (b.internal.charset_len - 1) progress) := by
  have hNcast : ((b.ncols.toNat : Int)) = b.ncols := Int.toNat_of_nonneg (le_of_lt hn0)
  have hNQ : ((b.ncols.toNat : ℚ)) = ((b.ncols : Int) : ℚ) := by exact_mod_cast hNcast
  have hlenL : b.internal.charset.toList.length = b.internal.charset_len := by
    rw [hlen]; rfl
  have hne : b.internal.charset.toList ≠ [] := by
    intro h
    rw [h] at hlenL
    simp at hlenL
    omega
  obtain ⟨g, hg⟩ : ∃ g, b.internal.charset.toList.getLast? = some g :=
    ⟨_, List.getLast?_eq_getLast _ hne⟩
  have hcq0 : (0 : ℚ) ≤ ((b.ncols : Int) : ℚ) := by exact_mod_cast le_of_lt hn0
  have hq0 : 0 ≤ progress * ((b.ncols : Int) : ℚ)
      * ((b.internal.charset_len - 1 : Nat) : ℚ) :=
    mul_nonneg (mul_nonneg hp0 hcq0) (Nat.cast_nonneg _)
  have hqle : progress * ((b.ncols : Int) : ℚ) * ((b.internal.charset_len - 1 : Nat) : ℚ)
      ≤ ((b.ncols.toNat * (b.internal.charset_len - 1) : Nat) : ℚ) := by
    push_cast [hNQ]
    calc progress * ((b.ncols : Int) : ℚ) * ((b.internal.charset_len - 1 : Nat) : ℚ)
        ≤ 1 * ((b.ncols : Int) : ℚ) * ((b.internal.charset_len - 1 : Nat) : ℚ) := by
          apply mul_le_mul_of_nonneg_right _ (Nat.cast_nonneg _)
          exact mul_le_mul_of_nonneg_right hp1 hcq0
      _ = ((b.ncols : Int) : ℚ) * ((b.internal.charset_len - 1 : Nat) : ℚ) := by
          rw [one_mul]
  have hbound : (b.ncols.toNat * (b.internal.charset_len - 1) : Nat) ≤ 2 ^ 64 - 1 := by
    calc b.ncols.toNat * (b.internal.charset_len - 1)
        ≤ 2 ^ 15 * 2 ^ 32 := Nat.mul_le_mul (by omega) (by omega)
      _ ≤ 2 ^ 64 - 1 := by norm_num
  have hu : u64OfRat (progress * ((b.ncols : Int) : ℚ)
        * ((b.internal.charset_len - 1 : Nat) : ℚ))
      = (⌊progress * ((b.ncols : Int) : ℚ)
          * ((b.internal.charset_len - 1 : Nat) : ℚ)⌋).toNat :=
    u64OfRat_of_le hq0 (le_trans hqle (by exact_mod_cast hbound))
  have hfle : ⌊progress * ((b.ncols : Int) : ℚ)
        * ((b.internal.charset_len - 1 : Nat) : ℚ)⌋
      ≤ ((b.ncols.toNat * (b.internal.charset_len - 1) : Nat) : Int) := by
    have := Int.floor_le_floor (α := ℚ) hqle
    rwa [Int.floor_natCast] at this
  have hSle : (⌊progress * ((b.ncols : Int) : ℚ)
        * ((b.internal.charset_len - 1 : Nat) : ℚ)⌋).toNat
      ≤ b.ncols.toNat * (b.internal.charset_len - 1) := by omega
  have hic : i16ToUsize b.ncols = b.ncols.toNat :=
    i16ToUsize_small (le_of_lt hn0) (by omega)
  simp only [Bar.blockArm, specBlockMeter, divmod, hg, hu, hic,
    ratFloor_eq_intFloor, hNQ]
  set S := (⌊progress * ((b.ncols : Int) : ℚ)
      * ((b.internal.charset_len - 1 : Nat) : ℚ)⌋).toNat with hS
  have hnsyms : 0 < b.internal.charset_len - 1 := by omega
  have hfull : S / (b.internal.charset_len - 1) ≤ b.ncols.toNat := by
    calc S / (b.internal.charset_len - 1)
        ≤ b.ncols.toNat * (b.internal.charset_len - 1) / (b.internal.charset_len - 1) :=
          Nat.div_le_div_right hSle
      _ = b.ncols.toNat := Nat.mul_div_cancel _ hnsyms
  have hgd : b.internal.charset.data.getLast? = some g := hg
  obtain ⟨F, hF⟩ : ∃ F, S / (b.internal.charset_len - 1) = F := ⟨_, rfl⟩
  obtain ⟨R, hR⟩ : ∃ R, S % (b.internal.charset_len - 1) = R := ⟨_, rfl⟩
  rw [hF, hR]
  rw [hF] at hfull
  have hrem : R < b.internal.charset_len - 1 := hR ▸ Nat.mod_lt _ hnsyms
  by_cases hflt : F < b.ncols.toNat
  · simp only [if_pos hflt]
    have hidx : R + 1 < b.internal.charset.toList.length := by omega
    rw [List.get?_eq_get hidx]
    have ha0 : (-(2 ^ 15) : Int) ≤ ((F : Nat) : Int) := by omega
    have ha1 : ((F : Nat) : Int) < 2 ^ 15 := by omega
    have hw1 : wrapI16 ((F : Nat) : Int) = ((F : Nat) : Int) := wrapI16_small ha0 ha1
    rw [hw1]
    have hb0 : (-(2 ^ 15) : Int) ≤ b.ncols - ((F : Nat) : Int) - 1 := by omega
    have hb1 : b.ncols - ((F : Nat) : Int) - 1 < 2 ^ 15 := by omega
    have hw2 : wrapI16 (b.ncols - ((F : Nat) : Int) - 1)
        = b.ncols - ((F : Nat) : Int) - 1 := wrapI16_small hb0 hb1
    rw [hw2]
    have hc0 : (0 : Int) ≤ b.ncols - ((F : Nat) : Int) - 1 := by omega
    have hc1 : b.ncols - ((F : Nat) : Int) - 1 < 2 ^ 64 := by omega
    rw [i16ToUsize_small hc0 hc1]
    have hcnt : (b.ncols - ((F : Nat) : Int) - 1).toNat = b.ncols.toNat - F - 1 := by
      omega
    rw [hcnt]
    simp only [List.getLastD_eq_getLast?, hg, hgd, Option.getD_some,
      List.getD_eq_getElem?_getD, List.get?_eq_getElem?, List.getElem?_eq_getElem hidx,
      List.get_eq_getElem, String.append_assoc]
  · simp only [if_neg hflt]
    simp [List.getLastD_eq_getLast?, hg, hgd]

/-- C6: for every bar of a block-style animation family (TqdmAscii,
Tqdm, FillUp) with meter width ncols > 0 (in the i16 range) and a
charset of length nsyms + 1 (with nsyms at least 1 and within the u32
range, and charset_len recorded consistently), and every progress
fraction in [0, 1], render_mbar emits the claim's divmod rendering:
with (full_blocks, remainder) = divmod(floor(progress * ncols * nsyms),
nsyms), full_blocks copies of the last charset glyph, then exactly when
full_blocks < ncols one transitional glyph at charset index
remainder + 1 followed by ncols - full_blocks - 1 fill characters, the
whole run wrapped in the family brackets and colour escapes. -/
theorem c6_block_style_divmod_rendering (b : Bar) (progress : ℚ)
    (hanim : b.animation = Animation.TqdmAscii ∨ b.animation = Animation.Tqdm
      ∨ b.animation = Animation.FillUp)
    (hn0 : 0 < b.ncols) (hn1 : b.ncols < 2 ^ 15)
    (hlen : b.internal.charset_len = b.internal.charset.length)
    (h2 : 2 ≤ b.internal.charset_len) (hup : b.internal.charset_len ≤ 2 ^ 32)
    (hp0 : 0 ≤ progress) (hp1 : progress ≤ 1) :
    b.render_mbar progress
      = some (blockBracketWrap b.colour
          (specBlockMeter b.internal.charset b.fill b.ncols.toNat
            (b.internal.charset_len - 1) progress)) := by
  have key := blockArm_eq_specBlockMeter b progress hn0 hn1 hlen h2 hup hp0 hp1
  rcases hanim with h | h | h <;>
    · simp only [Bar.render_mbar, Bar.barAnimation, h, key, blockBracketWrap]
      by_cases hc : b.colour = "default" <;> simp [hc]

/-- Concrete bar exercising the C6 theorem: default configuration with
a five-glyph custom charset. -/
def c6WitnessBar : Bar :=
  { Bar.default with
    internal := { BarInternal.default with
                  charset := "0123#"
                  charset_len := 5 } }

/-- C6 witness at the concrete bar and progress one half. -/
theorem c6_block_style_divmod_rendering_witness :
    c6WitnessBar.render_mbar (1 / 2)
      = some (blockBracketWrap c6WitnessBar.colour
          (specBlockMeter c6WitnessBar.internal.charset c6WitnessBar.fill
            c6WitnessBar.ncols.toNat (c6WitnessBar.internal.charset_len - 1)
            (1 / 2))) :=
  c6_block_style_divmod_rendering c6WitnessBar (1 / 2) (Or.inl rfl) (by decide)
    (by decide) (by decide) (by decide) (by decide) (by norm_num) (by norm_num)

/-- C8 counterexample: a wake-up of Bar::monitor (std_bar.rs) on a bar
with n = 5, total = 10 and loop snapshot 3 neither exits (n differs
from total, consistent with the claim) nor forces a refresh
(contradicting the claim): since the counter advanced past the
snapshot, the loop body only records the new counter value. -/
theorem c8_std_monitor_no_refresh_counterexample :
    (({ Bar.default with total := 10, n := 5 } : Bar).stdMonitorWake 3 0 0).map
        (fun p => (p.2.1, p.2.2)) = some (5, false) ∧
    ({ Bar.default with total := 10, n := 5 } : Bar).stdMonitorExit = false ∧
    ({ Bar.default with total := 10, n := 5 } : Bar).n
      ≠ ({ Bar.default with total := 10, n := 5 } : Bar).total := by
  refine ⟨?_, by decide, by decide⟩
  simp [Bar.stdMonitorWake, Bar.default]

/-- C8 (amended): the spawned monitor loop of monitor::bar exits on a
wake-up exactly when the completion predicate n == total holds and
otherwise forces a refresh (there is no other exit path); the
in-struct Bar::monitor loop likewise exits exactly when n == total,
but on a non-exiting wake-up it refreshes only when the counter has
not advanced since the previous wake-up, otherwise it just records the
new counter value. -/
theorem c8_monitor_wakeup_behaviour :
    (∀ (b : Bar) (now : ℚ) (cols : Nat) (r : Bar × Bool),
        monitorBarWake b now cols = some r → (r.2 = true ↔ b.n = b.total)) ∧
    (∀ (b : Bar) (now : ℚ) (cols : Nat), b.n ≠ b.total →
        monitorBarWake b now cols
          = (b.refresh now cols).map (fun p => (p.1, false))) ∧
    (∀ b : Bar, b.stdMonitorExit = true ↔ b.n = b.total) ∧
    (∀ (b : Bar) (snap : Nat) (now : ℚ) (cols : Nat) (r : Bar × Nat × Bool),
        b.stdMonitorWake snap now cols = some r → (r.2.2 = true ↔ b.n = snap)) := by
  refine ⟨?_, ?_, ?_, ?_⟩
  · intro b now cols r h
    unfold monitorBarWake at h
    by_cases hc : b.n = b.total
    · simp [Bar.completed, hc] at h
      simp [← h, hc]
    · simp only [Bar.completed, beq_iff_eq, hc, if_neg, if_false] at h
      rcases hr : b.refresh now cols with _ | p
      · rw [hr] at h
        cases h
      · rw [hr] at h
        cases h
        simpa using hc
  · intro b now cols hne
    unfold monitorBarWake
    simp only [Bar.completed, beq_iff_eq, hne, if_false]
    rcases hr : b.refresh now cols with _ | p <;> simp
  · intro b
    simp [Bar.stdMonitorExit]
  · intro b snap now cols r h
    unfold Bar.stdMonitorWake at h
    by_cases hc : b.n = snap
    · simp only [hc, if_pos, if_true] at h
      rcases hr : b.refresh now cols with _ | p
      · rw [hr] at h
        cases h
      · rw [hr] at h
        cases h
        simpa using hc
    · simp [hc] at h
      rw [← h]
      simp [hc]

/-- C8 witness: the four amended properties applied at concrete bars
(a completed bar for the exit direction, a running bar for the refresh
direction, and a stalled-counter check for the in-struct monitor). -/
theorem c8_monitor_wakeup_behaviour_witness :
    ((true : Bool) = true ↔ ({ Bar.default with total := 7, n := 7 } : Bar).n
        = ({ Bar.default with total := 7, n := 7 } : Bar).total) ∧
    (monitorBarWake ({ Bar.default with total := 7, n := 2 } : Bar) 0 0
        = (({ Bar.default with total := 7, n := 2 } : Bar).refresh 0 0).map
            (fun p => (p.1, false))) ∧
    (({ Bar.default with total := 7, n := 7 } : Bar).stdMonitorExit = true
        ↔ ({ Bar.default with total := 7, n := 7 } : Bar).n
            = ({ Bar.default with total := 7, n := 7 } : Bar).total) ∧
    ((false : Bool) = true ↔ ({ Bar.default with total := 10, n := 5 } : Bar).n = 3) := by
  refine ⟨?_, ?_, ?_, ?_⟩
  · exact c8_monitor_wakeup_behaviour.1 { Bar.default with total := 7, n := 7 } 0 0
      ({ Bar.default with total := 7, n := 7 }, true) (by rfl)
  · exact c8_monitor_wakeup_behaviour.2.1 { Bar.default with total := 7, n := 2 } 0 0
      (by decide)
  · exact c8_monitor_wakeup_behaviour.2.2.1 { Bar.default with total := 7, n := 7 }
  · exact c8_monitor_wakeup_behaviour.2.2.2 { Bar.default with total := 10, n := 5 } 3 0 0
      ({ Bar.default with total := 10, n := 5 }, 5, false) (by rfl)

/-- C2 spec-side definition, written from the claim's words in terms of
the pre-call state: a render+write happens on an enabled bar exactly
when (the startup delay has elapsed AND the minimum time interval has
elapsed since the last recorded render AND the iteration gate holds,
where the gate is always true when miniters is at most 1 and otherwise
is n mod miniters = 0) OR the counter n equals total OR the
force-refresh flag is set.  The counter is the post-increment value,
the elapsed reading is 0 on a first (starting) call, and the
force-refresh flag includes the max-fps priming performed by init on a
first call. -/
def updateWriteCondSpec (b : Bar) (amount : Nat) (now : ℚ) : Prop :=
  let started := b.internal.started
  let nPost := (if started then b.n else b.initial) + amount
  let frPost := b.internal.force_refresh = true ∨ (started = false ∧ b.max_fps = true)
  let elapsedNow : ℚ := if started then now - b.internal.timer else 0
  let timeGate := b.mininterval ≤ elapsedNow - b.internal.elapsed_time
  let iterGate := b.miniters ≤ 1 ∨ nPost % b.miniters = 0
  let delayGate := b.delay ≤ elapsedNow
  (delayGate ∧ timeGate ∧ iterGate) ∨ nPost = b.total ∨ frPost

section InitStageLemmas

variable (b : Bar)

@[simp] lemma initCounter_total : (b.initCounter).total = b.total := rfl
@[simp] lemma initCounter_leave : (b.initCounter).leave = b.leave := rfl
@[simp] lemma initCounter_disable : (b.initCounter).disable = b.disable := rfl
@[simp] lemma initCounter_mininterval : (b.initCounter).mininterval = b.mininterval := rfl
@[simp] lemma initCounter_delay : (b.initCounter).delay = b.delay := rfl
@[simp] lemma initCounter_max_fps : (b.initCounter).max_fps = b.max_fps := rfl
@[simp] lemma initCounter_initial : (b.initCounter).initial = b.initial := rfl
@[simp] lemma initCounter_miniters : (b.initCounter).miniters = b.miniters := rfl
@[simp] lemma initCounter_dynamic : (b.initCounter).dynamic_miniters = b.dynamic_miniters := rfl
@[simp] lemma initCounter_n : (b.initCounter).n = b.initial := rfl
@[simp] lemma initCounter_internal : (b.initCounter).internal = b.internal := rfl

@[simp] lemma initNcols_total : (b.initNcols).total = b.total := by
  unfold Bar.initNcols; split_ifs <;> rfl
@[simp] lemma initNcols_leave : (b.initNcols).leave = b.leave := by
  unfold Bar.initNcols; split_ifs <;> rfl
@[simp] lemma initNcols_disable : (b.initNcols).disable = b.disable := by
  unfold Bar.initNcols; split_ifs <;> rfl
@[simp] lemma initNcols_mininterval : (b.initNcols).mininterval = b.mininterval := by
  unfold Bar.initNcols; split_ifs <;> rfl
@[simp] lemma initNcols_delay : (b.initNcols).delay = b.delay := by
  unfold Bar.initNcols; split_ifs <;> rfl
@[simp] lemma initNcols_max_fps : (b.initNcols).max_fps = b.max_fps := by
  unfold Bar.initNcols; split_ifs <;> rfl
@[simp] lemma initNcols_initial : (b.initNcols).initial = b.initial := by
  unfold Bar.initNcols; split_ifs <;> rfl
@[simp] lemma initNcols_miniters : (b.initNcols).miniters = b.miniters := by
  unfold Bar.initNcols; split_ifs <;> rfl
@[simp] lemma initNcols_dynamic : (b.initNcols).dynamic_miniters = b.dynamic_miniters := by
  unfold Bar.initNcols; split_ifs <;> rfl
@[simp] lemma initNcols_n : (b.initNcols).n = b.n := by
  unfold Bar.initNcols; split_ifs <;> rfl
@[simp] lemma initNcols_elapsed : (b.initNcols).internal.elapsed_time = b.internal.elapsed_time := by
  unfold Bar.initNcols; split_ifs <;> rfl
@[simp] lemma initNcols_timer : (b.initNcols).internal.timer = b.internal.timer := by
  unfold Bar.initNcols; split_ifs <;> rfl
@[simp] lemma initNcols_started : (b.initNcols).internal.started = b.internal.started := by
  unfold Bar.initNcols; split_ifs <;> rfl
@[simp] lemma initNcols_force : (b.initNcols).internal.force_refresh = b.internal.force_refresh := by
  unfold Bar.initNcols; split_ifs <;> rfl

@[simp] lemma set_colour_total (c : String) : (b.set_colour c).total = b.total := by
  unfold Bar.set_colour; split_ifs <;> rfl
@[simp] lemma set_colour_leave (c : String) : (b.set_colour c).leave = b.leave := by
  unfold Bar.set_colour; split_ifs <;> rfl
@[simp] lemma set_colour_disable (c : String) : (b.set_colour c).disable = b.disable := by
  unfold Bar.set_colour; split_ifs <;> rfl
@[simp] lemma set_colour_mininterval (c : String) : (b.set_colour c).mininterval = b.mininterval := by
  unfold Bar.set_colour; split_ifs <;> rfl
@[simp] lemma set_colour_delay (c : String) : (b.set_colour c).delay = b.delay := by
  unfold Bar.set_colour; split_ifs <;> rfl
@[simp] lemma set_colour_max_fps (c : String) : (b.set_colour c).max_fps = b.max_fps := by
  unfold Bar.set_colour; split_ifs <;> rfl
@[simp] lemma set_colour_initial (c : String) : (b.set_colour c).initial = b.initial := by
  unfold Bar.set_colour; split_ifs <;> rfl
@[simp] lemma set_colour_miniters (c : String) : (b.set_colour c).miniters = b.miniters := by
  unfold Bar.set_colour; split_ifs <;> rfl
@[simp] lemma set_colour_dynamic (c : String) : (b.set_colour c).dynamic_miniters = b.dynamic_miniters := by
  unfold Bar.set_colour; split_ifs <;> rfl
@[simp] lemma set_colour_n (c : String) : (b.set_colour c).n = b.n := by
  unfold Bar.set_colour; split_ifs <;> rfl
@[simp] lemma set_colour_internal (c : String) : (b.set_colour c).internal = b.internal := by
  unfold Bar.set_colour; split_ifs <;> rfl
@[simp] lemma set_colour_ascii (c : String) : (b.set_colour c).ascii = b.ascii := by
  unfold Bar.set_colour; split_ifs <;> rfl
@[simp] lemma set_colour_animation (c : String) : (b.set_colour c).animation = b.animation := by
  unfold Bar.set_colour; split_ifs <;> rfl
@[simp] lemma initNcols_ascii : (b.initNcols).ascii = b.ascii := by
  unfold Bar.initNcols; split_ifs <;> rfl
@[simp] lemma initNcols_animation : (b.initNcols).animation = b.animation := by
  unfold Bar.initNcols; split_ifs <;> rfl

@[simp] lemma initCharset_total : (b.initCharset).total = b.total := by
  unfold Bar.initCharset Bar.set_charset; split_ifs <;> rfl
@[simp] lemma initCharset_leave : (b.initCharset).leave = b.leave := by
  unfold Bar.initCharset Bar.set_charset; split_ifs <;> rfl
@[simp] lemma initCharset_disable : (b.initCharset).disable = b.disable := by
  unfold Bar.initCharset Bar.set_charset; split_ifs <;> rfl
@[simp] lemma initCharset_mininterval : (b.initCharset).mininterval = b.mininterval := by
  unfold Bar.initCharset Bar.set_charset; split_ifs <;> rfl
@[simp] lemma initCharset_delay : (b.initCharset).delay = b.delay := by
  unfold Bar.initCharset Bar.set_charset; split_ifs <;> rfl
@[simp] lemma initCharset_max_fps : (b.initCharset).max_fps = b.max_fps := by
  unfold Bar.initCharset Bar.set_charset; split_ifs <;> rfl
@[simp] lemma initCharset_initial : (b.initCharset).initial = b.initial := by
  unfold Bar.initCharset Bar.set_charset; split_ifs <;> rfl
@[simp] lemma initCharset_miniters : (b.initCharset).miniters = b.miniters := by
  unfold Bar.initCharset Bar.set_charset; split_ifs <;> rfl
@[simp] lemma initCharset_dynamic : (b.initCharset).dynamic_miniters = b.dynamic_miniters := by
  unfold Bar.initCharset Bar.set_charset; split_ifs <;> rfl
@[simp] lemma initCharset_n : (b.initCharset).n = b.n := by
  unfold Bar.initCharset Bar.set_charset; split_ifs <;> rfl
@[simp] lemma initCharset_elapsed : (b.initCharset).internal.elapsed_time = b.internal.elapsed_time := by
  unfold Bar.initCharset Bar.set_charset; split_ifs <;> rfl
@[simp] lemma initCharset_timer : (b.initCharset).internal.timer = b.internal.timer := by
  unfold Bar.initCharset Bar.set_charset; split_ifs <;> rfl
@[simp] lemma initCharset_started : (b.initCharset).internal.started = b.internal.started := by
  unfold Bar.initCharset Bar.set_charset; split_ifs <;> rfl
@[simp] lemma initCharset_force : (b.initCharset).internal.force_refresh = b.internal.force_refresh := by
  unfold Bar.initCharset Bar.set_charset; split_ifs <;> rfl

@[simp] lemma initForce_total : (b.initForce).total = b.total := by
  unfold Bar.initForce; split_ifs <;> rfl
@[simp] lemma initForce_leave : (b.initForce).leave = b.leave := by
  unfold Bar.initForce; split_ifs <;> rfl
@[simp] lemma initForce_disable : (b.initForce).disable = b.disable := by
  unfold Bar.initForce; split_ifs <;> rfl
@[simp] lemma initForce_mininterval : (b.initForce).mininterval = b.mininterval := by
  unfold Bar.initForce; split_ifs <;> rfl
@[simp] lemma initForce_delay : (b.initForce).delay = b.delay := by
  unfold Bar.initForce; split_ifs <;> rfl
@[simp] lemma initForce_max_fps : (b.initForce).max_fps = b.max_fps := by
  unfold Bar.initForce; split_ifs <;> rfl
@[simp] lemma initForce_initial : (b.initForce).initial = b.initial := by
  unfold Bar.initForce; split_ifs <;> rfl
@[simp] lemma initForce_miniters : (b.initForce).miniters = b.miniters := by
  unfold Bar.initForce; split_ifs <;> rfl
@[simp] lemma initForce_dynamic : (b.initForce).dynamic_miniters = b.dynamic_miniters := by
  unfold Bar.initForce; split_ifs <;> rfl
@[simp] lemma initForce_n : (b.initForce).n = b.n := by
  unfold Bar.initForce; split_ifs <;> rfl
@[simp] lemma initForce_elapsed : (b.initForce).internal.elapsed_time = b.internal.elapsed_time := by
  unfold Bar.initForce; split_ifs <;> rfl
@[simp] lemma initForce_timer : (b.initForce).internal.timer = b.internal.timer := by
  unfold Bar.initForce; split_ifs <;> rfl
@[simp] lemma initForce_started : (b.initForce).internal.started = b.internal.started := by
  unfold Bar.initForce; split_ifs <;> rfl
@[simp] lemma initForce_force :
    (b.initForce).internal.force_refresh = (b.internal.force_refresh || b.max_fps) := by
  unfold Bar.initForce; split_ifs with h <;> simp_all

end InitStageLemmas

/-- The start-up stage changes no throttle-relevant configuration: it
only (on a first call) re-initializes the counter, restarts the timer,
sets the started flag, and primes the force-refresh flag in max-fps
mode. -/
lemma updateStart_fields (b : Bar) (now : ℚ) :
    (b.updateStart now).total = b.total
    ∧ (b.updateStart now).leave = b.leave
    ∧ (b.updateStart now).disable = b.disable
    ∧ (b.updateStart now).mininterval = b.mininterval
    ∧ (b.updateStart now).delay = b.delay
    ∧ (b.updateStart now).max_fps = b.max_fps
    ∧ (b.updateStart now).initial = b.initial
    ∧ (b.updateStart now).miniters = b.miniters
    ∧ (b.updateStart now).dynamic_miniters = b.dynamic_miniters
    ∧ (b.updateStart now).internal.elapsed_time = b.internal.elapsed_time
    ∧ (b.updateStart now).internal.started = true
    ∧ (b.updateStart now).internal.timer
        = (if b.internal.started then b.internal.timer else now)
    ∧ (b.updateStart now).n = (if b.internal.started then b.n else b.initial)
    ∧ (b.updateStart now).internal.force_refresh
        = (b.internal.force_refresh || (!b.internal.started && b.max_fps)) := by
  by_cases hs : b.internal.started = false
  · simp [Bar.updateStart, Bar.init, hs]
  · have hs2 : b.internal.started = true := by
      revert hs
      cases b.internal.started <;> simp
    simp [Bar.updateStart, hs2]

section RenderStateLemmas

variable (b : Bar) (now : ℚ) (i : Nat) (columns : Nat) (l : Int)

@[simp] lemma render_rbar_n : (b.render_rbar now i).1.n = b.n := rfl
@[simp] lemma render_rbar_total : (b.render_rbar now i).1.total = b.total := rfl
@[simp] lemma render_rbar_leave : (b.render_rbar now i).1.leave = b.leave := rfl
@[simp] lemma render_rbar_disable : (b.render_rbar now i).1.disable = b.disable := rfl
@[simp] lemma render_rbar_mininterval : (b.render_rbar now i).1.mininterval = b.mininterval := rfl
@[simp] lemma render_rbar_delay : (b.render_rbar now i).1.delay = b.delay := rfl
@[simp] lemma render_rbar_max_fps : (b.render_rbar now i).1.max_fps = b.max_fps := rfl
@[simp] lemma render_rbar_initial : (b.render_rbar now i).1.initial = b.initial := rfl
@[simp] lemma render_rbar_started : (b.render_rbar now i).1.internal.started = b.internal.started := rfl
@[simp] lemma render_rbar_timer : (b.render_rbar now i).1.internal.timer = b.internal.timer := rfl
@[simp] lemma render_rbar_force : (b.render_rbar now i).1.internal.force_refresh = b.internal.force_refresh := rfl
@[simp] lemma render_rbar_elapsed : (b.render_rbar now i).1.internal.elapsed_time = now - b.internal.timer := rfl

@[simp] lemma set_ncols_n : (b.set_ncols columns l).n = b.n := by
  unfold Bar.set_ncols; dsimp only; split_ifs <;> rfl
@[simp] lemma set_ncols_total : (b.set_ncols columns l).total = b.total := by
  unfold Bar.set_ncols; dsimp only; split_ifs <;> rfl
@[simp] lemma set_ncols_leave : (b.set_ncols columns l).leave = b.leave := by
  unfold Bar.set_ncols; dsimp only; split_ifs <;> rfl
@[simp] lemma set_ncols_disable : (b.set_ncols columns l).disable = b.disable := by
  unfold Bar.set_ncols; dsimp only; split_ifs <;> rfl
@[simp] lemma set_ncols_mininterval : (b.set_ncols columns l).mininterval = b.mininterval := by
  unfold Bar.set_ncols; dsimp only; split_ifs <;> rfl
@[simp] lemma set_ncols_delay : (b.set_ncols columns l).delay = b.delay := by
  unfold Bar.set_ncols; dsimp only; split_ifs <;> rfl
@[simp] lemma set_ncols_max_fps : (b.set_ncols columns l).max_fps = b.max_fps := by
  unfold Bar.set_ncols; dsimp only; split_ifs <;> rfl
@[simp] lemma set_ncols_initial : (b.set_ncols columns l).initial = b.initial := by
  unfold Bar.set_ncols; dsimp only; split_ifs <;> rfl
@[simp] lemma set_ncols_started : (b.set_ncols columns l).internal.started = b.internal.started := by
  unfold Bar.set_ncols; dsimp only; split_ifs <;> rfl
@[simp] lemma set_ncols_timer : (b.set_ncols columns l).internal.timer = b.internal.timer := by
  unfold Bar.set_ncols; dsimp only; split_ifs <;> rfl
@[simp] lemma set_ncols_force : (b.set_ncols columns l).internal.force_refresh = b.internal.force_refresh := by
  unfold Bar.set_ncols; dsimp only; split_ifs <;> rfl
@[simp] lemma set_ncols_elapsed : (b.set_ncols columns l).internal.elapsed_time = b.internal.elapsed_time := by
  unfold Bar.set_ncols; dsimp only; split_ifs <;> rfl

end RenderStateLemmas

/-- State facts about a successful render: all throttle-relevant fields
are preserved, and the recorded elapsed time is refreshed to the
current reading except on the erase-frame early return (progress 1
with leave false), where it is left unchanged. -/
lemma render_fields (b : Bar) (now : ℚ) (columns : Nat) (i : Nat)
    (r : Bar × String × String × String) (h : b.render now columns i = some r) :
    r.1.n = b.n ∧ r.1.total = b.total ∧ r.1.leave = b.leave ∧ r.1.disable = b.disable
    ∧ r.1.mininterval = b.mininterval ∧ r.1.delay = b.delay ∧ r.1.max_fps = b.max_fps
    ∧ r.1.initial = b.initial ∧ r.1.internal.started = b.internal.started
    ∧ r.1.internal.timer = b.internal.timer
    ∧ r.1.internal.force_refresh = b.internal.force_refresh
    ∧ (r.1.internal.elapsed_time = now - b.internal.timer
        ∨ ((b.render_lbar i).1 = 1 ∧ b.leave = false
            ∧ r.1.internal.elapsed_time = b.internal.elapsed_time)) := by
  unfold Bar.render at h
  dsimp only at h
  split at h
  · rename_i hearly
    cases h
    exact ⟨rfl, rfl, rfl, rfl, rfl, rfl, rfl, rfl, rfl, rfl, rfl,
      Or.inr ⟨hearly.1, hearly.2, rfl⟩⟩
  · split at h
    · cases h
      simp
    · split at h
      · cases h
      · cases h
        simp

/-- State facts about a successful indefinite-mode render: all
throttle-relevant fields are preserved and the recorded elapsed time
is refreshed to the current reading. -/
lemma render_unknown_fields (b : Bar) (now : ℚ) (i : Nat) (r : Bar × String)
    (h : b.render_unknown now i = some r) :
    r.1.n = b.n ∧ r.1.total = b.total ∧ r.1.leave = b.leave ∧ r.1.disable = b.disable
    ∧ r.1.mininterval = b.mininterval ∧ r.1.delay = b.delay ∧ r.1.max_fps = b.max_fps
    ∧ r.1.initial = b.initial ∧ r.1.internal.started = b.internal.started
    ∧ r.1.internal.timer = b.internal.timer
    ∧ r.1.internal.force_refresh = b.internal.force_refresh
    ∧ r.1.internal.elapsed_time = now - b.internal.timer := by
  unfold Bar.render_unknown at h
  dsimp only at h
  split at h
  · cases h
  · cases h
    simp

/-- State facts about a successful write-branch execution: all
throttle-relevant fields except miniters are preserved, and the
recorded elapsed time is refreshed to the current reading except on
the completion erase frame of a leave = false bar. -/
lemma updateWrite_fields (b : Bar) (now : ℚ) (columns : Nat) (b2 : Bar)
    (h : b.updateWrite now columns = some b2) :
    b2.n = b.n ∧ b2.total = b.total ∧ b2.leave = b.leave ∧ b2.disable = b.disable
    ∧ b2.mininterval = b.mininterval ∧ b2.delay = b.delay ∧ b2.max_fps = b.max_fps
    ∧ b2.initial = b.initial ∧ b2.internal.started = b.internal.started
    ∧ b2.internal.timer = b.internal.timer
    ∧ b2.internal.force_refresh = b.internal.force_refresh
    ∧ (b2.internal.elapsed_time = now - b.internal.timer
        ∨ (b.total ≠ 0 ∧ b.total ≤ b.n ∧ b.leave = false
            ∧ b2.internal.elapsed_time = b.internal.elapsed_time)) := by
  unfold Bar.updateWrite at h
  dsimp only at h
  by_cases hd : b.dynamic_miniters = true
  all_goals first
    | rw [if_pos hd] at h
    | rw [if_neg hd] at h
  all_goals by_cases ht : b.total ≠ 0
  all_goals first
      | (rw [if_pos ht] at h
         split at h
         · exact absurd h (by simp)
         · rename_i heq
           cases h
           have hf := render_fields _ _ _ _ _ heq
           have hpos : (0 : Nat) < b.total := Nat.pos_of_ne_zero ht
           refine ⟨hf.1, hf.2.1, hf.2.2.1, hf.2.2.2.1, hf.2.2.2.2.1, hf.2.2.2.2.2.1,
             hf.2.2.2.2.2.2.1, hf.2.2.2.2.2.2.2.1, hf.2.2.2.2.2.2.2.2.1,
             hf.2.2.2.2.2.2.2.2.2.1, hf.2.2.2.2.2.2.2.2.2.2.1, ?_⟩
           rcases hf.2.2.2.2.2.2.2.2.2.2.2 with he | ⟨hp, hl, he⟩
           · exact Or.inl he
           · exact Or.inr ⟨ht, (render_lbar_progress_eq_one_iff _ _ hpos).mp hp, hl, he⟩)
      | (rw [if_neg ht] at h
         split at h
         · exact absurd h (by simp)
         · rename_i heq
           cases h
           have hf := render_unknown_fields _ _ _ _ heq
           exact ⟨hf.1, hf.2.1, hf.2.2.1, hf.2.2.2.1, hf.2.2.2.2.1, hf.2.2.2.2.2.1,
             hf.2.2.2.2.2.2.1, hf.2.2.2.2.2.2.2.1, hf.2.2.2.2.2.2.2.2.1,
             hf.2.2.2.2.2.2.2.2.2.1, hf.2.2.2.2.2.2.2.2.2.2.1,
             Or.inl hf.2.2.2.2.2.2.2.2.2.2.2⟩)

/-- The iteration gate of update, as a boolean, holds exactly when
miniters is at most 1 or the counter is a multiple of miniters. -/
lemma iterGate_iff (m n : Nat) :
    ((if m ≤ 1 then true else decide (n % m = 0)) = true) ↔ (m ≤ 1 ∨ n % m = 0) := by
  split_ifs with hm
  · simp [hm]
  · simp [hm]

/-- Master facts about one updateCore step: all configuration fields
are preserved, the counter is incremented, the started flag, timer and
force-refresh flag are untouched, a write refreshes the recorded
elapsed time except on the completion erase frame of a leave = false
bar, and (on an enabled bar) a write happens exactly when the claim's
condition holds: the time gate, iteration gate and startup-delay gate
all pass, or the counter equals the total, or the force-refresh flag
is set. -/
lemma updateCore_fields (b1 : Bar) (a : Nat) (now : ℚ) (columns : Nat)
    (b2 : Bar) (w : Bool) (h : b1.updateCore a now columns = some (b2, w)) :
    b2.total = b1.total ∧ b2.leave = b1.leave ∧ b2.disable = b1.disable
    ∧ b2.mininterval = b1.mininterval ∧ b2.delay = b1.delay ∧ b2.max_fps = b1.max_fps
    ∧ b2.initial = b1.initial ∧ b2.n = b1.n + a
    ∧ b2.internal.started = b1.internal.started
    ∧ b2.internal.timer = b1.internal.timer
    ∧ b2.internal.force_refresh = b1.internal.force_refresh
    ∧ (w = true →
        (b2.internal.elapsed_time = now - b1.internal.timer
          ∨ (b1.total ≠ 0 ∧ b1.total ≤ b1.n + a ∧ b1.leave = false
              ∧ b2.internal.elapsed_time = b1.internal.elapsed_time)))
    ∧ (b1.disable = false →
        (w = true ↔
          ((b1.mininterval ≤ (now - b1.internal.timer) - b1.internal.elapsed_time
              ∧ (b1.miniters ≤ 1 ∨ (b1.n + a) % b1.miniters = 0)
              ∧ b1.delay ≤ now - b1.internal.timer)
            ∨ b1.n + a = b1.total
            ∨ b1.internal.force_refresh = true))) := by
  unfold Bar.updateCore at h
  dsimp only at h
  by_cases hdis : b1.disable = true
  · rw [if_pos hdis] at h
    cases h
    refine ⟨rfl, rfl, rfl, rfl, rfl, rfl, rfl, rfl, rfl, rfl, rfl, ?_, ?_⟩
    · intro hw
      cases hw
    · intro hd2
      rw [hdis] at hd2
      cases hd2
  · rw [if_neg hdis] at h
    simp only [decide_eq_true_eq, decide_eq_false_iff_not] at h
    by_cases hmc : b1.mininterval ≤ (now - b1.internal.timer) - b1.internal.elapsed_time
    · simp only [hmc, not_true, and_false, if_false, true_and] at h
      by_cases hcond : ((if b1.miniters ≤ 1 then true
            else decide ((b1.n + a) % b1.miniters = 0)) = true
            ∧ b1.delay ≤ now - b1.internal.timer)
          ∨ b1.n + a = b1.total ∨ b1.internal.force_refresh = true
      · rw [if_pos hcond] at h
        split at h
        · exact absurd h (by simp)
        · rename_i heq
          cases h
          have hw := updateWrite_fields _ _ _ _ heq
          refine ⟨hw.2.1, hw.2.2.1, hw.2.2.2.1, hw.2.2.2.2.1, hw.2.2.2.2.2.1,
            hw.2.2.2.2.2.2.1, hw.2.2.2.2.2.2.2.1, hw.1, hw.2.2.2.2.2.2.2.2.1,
            hw.2.2.2.2.2.2.2.2.2.1, hw.2.2.2.2.2.2.2.2.2.2.1, ?_, ?_⟩
          · intro _
            exact hw.2.2.2.2.2.2.2.2.2.2.2
          · intro _
            constructor
            · intro _
              rcases hcond with ⟨hic, hdel⟩ | hrest
              · exact Or.inl ⟨hmc, (iterGate_iff _ _).mp hic, hdel⟩
              · exact Or.inr hrest
            · intro _
              rfl
      · rw [if_neg hcond] at h
        cases h
        refine ⟨rfl, rfl, rfl, rfl, rfl, rfl, rfl, rfl, rfl, rfl, rfl, ?_, ?_⟩
        · intro hw
          cases hw
        · intro _
          constructor
          · intro hw
            cases hw
          · intro hspec
            exfalso
            apply hcond
            rcases hspec with ⟨_, hic, hdel⟩ | hrest
            · exact Or.inl ⟨(iterGate_iff _ _).mpr hic, hdel⟩
            · exact Or.inr hrest
    · simp only [hmc, not_false_iff, and_true, false_and, false_or] at h
      by_cases hdyn : b1.dynamic_miniters = true
      all_goals first
        | rw [if_pos hdyn] at h
        | rw [if_neg hdyn] at h
      all_goals dsimp only at h
      all_goals by_cases hcond : b1.n + a = b1.total ∨ b1.internal.force_refresh = true
      all_goals first
        | rw [if_pos hcond] at h
        | rw [if_neg hcond] at h
      all_goals first
        | (split at h
           · exact absurd h (by simp)
           · rename_i heq
             cases h
             have hw := updateWrite_fields _ _ _ _ heq
             refine ⟨hw.2.1, hw.2.2.1, hw.2.2.2.1, hw.2.2.2.2.1, hw.2.2.2.2.2.1,
               hw.2.2.2.2.2.2.1, hw.2.2.2.2.2.2.2.1, hw.1, hw.2.2.2.2.2.2.2.2.1,
               hw.2.2.2.2.2.2.2.2.2.1, hw.2.2.2.2.2.2.2.2.2.2.1, ?_, ?_⟩
             · intro _
               exact hw.2.2.2.2.2.2.2.2.2.2.2
             · intro _
               exact ⟨fun _ => Or.inr hcond, fun _ => rfl⟩)
        | (cases h
           refine ⟨rfl, rfl, rfl, rfl, rfl, rfl, rfl, rfl, rfl, rfl, rfl, ?_, ?_⟩
           · intro hw
             cases hw
           · intro _
             constructor
             · intro hw
               cases hw
             · intro hspec
               exfalso
               apply hcond
               rcases hspec with ⟨hmcs, _⟩ | hrest
               · exact absurd hmcs hmc
               · exact hrest)

set_option maxHeartbeats 1000000 in
/-- Master facts about one full update call, phrased on the pre-call
state: configuration is preserved, the counter becomes the
(re-initialized on a first call) counter plus the amount, the bar ends
started, the timer is restarted exactly on a first call, the
force-refresh flag is only changed by the max-fps priming of a first
call, a write refreshes the recorded elapsed time except on the
completion erase frame of a leave = false bar, and on an enabled bar a
write happens exactly when the claim's condition
updateWriteCondSpec holds. -/
lemma update_fields (b : Bar) (a : Nat) (now : ℚ) (columns : Nat)
    (b2 : Bar) (w : Bool) (h : b.update a now columns = some (b2, w)) :
    b2.total = b.total ∧ b2.leave = b.leave ∧ b2.disable = b.disable
    ∧ b2.mininterval = b.mininterval ∧ b2.delay = b.delay ∧ b2.max_fps = b.max_fps
    ∧ b2.initial = b.initial
    ∧ b2.n = (if b.internal.started then b.n else b.initial) + a
    ∧ b2.internal.started = true
    ∧ b2.internal.timer = (if b.internal.started then b.internal.timer else now)
    ∧ b2.internal.force_refresh
        = (b.internal.force_refresh || (!b.internal.started && b.max_fps))
    ∧ (w = true →
        (b2.internal.elapsed_time = now - b2.internal.timer
          ∨ (b.total ≠ 0 ∧ b.total ≤ b2.n ∧ b.leave = false
              ∧ b2.internal.elapsed_time = b.internal.elapsed_time)))
    ∧ (b.disable = false → (w = true ↔ updateWriteCondSpec b a now)) := by
  unfold Bar.update at h
  obtain ⟨hs1, hs2, hs3, hs4, hs5, hs6, hs7, hs8, hs9, hs10, hs11, hs12, hs13, hs14⟩ :=
    updateStart_fields b now
  obtain ⟨hc1, hc2, hc3, hc4, hc5, hc6, hc7, hc8, hc9, hc10, hc11, hc12, hc13⟩ :=
    updateCore_fields _ _ _ _ _ _ h
  refine ⟨hc1.trans hs1, hc2.trans hs2, hc3.trans hs3, hc4.trans hs4,
    hc5.trans hs5, hc6.trans hs6, hc7.trans hs7, by rw [hc8, hs13],
    hc9.trans hs11, hc10.trans hs12, hc11.trans hs14, ?_, ?_⟩
  · intro hw
    rcases hc12 hw with he | ⟨ht, hn, hl, he⟩
    · left
      rw [he, hc10]
    · right
      rw [hs1] at ht
      rw [hs2] at hl
      rw [← hc8] at hn
      rw [hs1] at hn
      exact ⟨ht, hn, hl, by rw [he, hs10]⟩
  · intro hd
    rw [hc13 (by rw [hs3]; exact hd)]
    unfold updateWriteCondSpec
    rw [hs4, hs5, hs8, hs10, hs12, hs13, hs14, hs1]
    clear h hc12 hc13 hc1 hc2 hc3 hc4 hc5 hc6 hc7 hc8 hc9 hc10 hc11
    clear hs1 hs2 hs3 hs4 hs5 hs6 hs7 hs8 hs9 hs10 hs11 hs12 hs13 hs14
    cases hst : b.internal.started <;>
      · simp only [hst, Bool.not_false, Bool.not_true, Bool.true_and, Bool.false_and,
          Bool.or_false, Bool.or_eq_true_iff, if_true, if_false, sub_self,
          Bool.false_eq_true, Bool.true_eq_false, false_and, and_false, or_false,
          eq_self_iff_true, true_and]
        tauto

/-- Concrete bar for the C2 counterexample: total 2, leave false,
already started (timer at epoch 0), all other options at their
defaults (mininterval 0.1, miniters 1). -/
def c2CtrBar : Bar :=
  { Bar.default with
    total := 2
    leave := false
    internal := { BarInternal.default with started := true } }

/-- The C2 counterexample bar after its first update call. -/
def c2CtrBarA : Bar :=
  { c2CtrBar with n := 3, internal := { c2CtrBar.internal with bar_length := 13 } }

/-- The C2 counterexample bar after its second update call. -/
def c2CtrBarB : Bar :=
  { c2CtrBar with n := 4, internal := { c2CtrBar.internal with bar_length := 26 } }

/-- C2 counterexample: on a leave = false bar with total 2, an update
to counter 3 at time 1 writes (the blank completion frame), yet does
not refresh the recorded last-render time, so a second update at time
1.05, only 0.05 seconds later, passes the time gate and writes again:
two frame writes less than 0.1 seconds apart although neither call's
counter equals the total and no force-refresh flag is set. -/
theorem c2_throttle_counterexample :
    Bar.update c2CtrBar 3 1 0 = some (c2CtrBarA, true) ∧
    Bar.update c2CtrBarA 1 (21 / 20) 0 = some (c2CtrBarB, true) ∧
    (21 / 20 : ℚ) - 1 < 1 / 10 ∧ (1 : ℚ) ≤ 21 / 20 ∧
    c2CtrBar.mininterval = 1 / 10 ∧ c2CtrBar.miniters = 1 ∧
    c2CtrBar.disable = false ∧ c2CtrBar.internal.force_refresh = false ∧
    c2CtrBar.max_fps = false ∧
    c2CtrBarA.n ≠ c2CtrBar.total ∧ c2CtrBarB.n ≠ c2CtrBar.total := by
  refine ⟨?_, ?_, by norm_num, by norm_num, rfl, rfl, rfl, rfl, rfl,
    by decide, by decide⟩
  · norm_num [Bar.update, Bar.updateStart, Bar.updateCore, Bar.updateWrite,
      Bar.render, Bar.render_lbar, c2CtrBar, c2CtrBarA, Bar.default,
      BarInternal.default, wrapI16, i16ToUsize, spaces, strRepeat, u64OfRat,
      truncRat]
    decide
  · norm_num [Bar.update, Bar.updateStart, Bar.updateCore, Bar.updateWrite,
      Bar.render, Bar.render_lbar, c2CtrBar, c2CtrBarA, c2CtrBarB, Bar.default,
      BarInternal.default, wrapI16, i16ToUsize, spaces, strRepeat, u64OfRat,
      truncRat]
    decide

/-- C2 (amended): on an enabled bar an update call performs a
render+write exactly when (the startup delay has elapsed AND the
minimum time interval has elapsed since the last recorded render AND
the iteration gate holds, the gate being always true when miniters is
at most 1 and otherwise n mod miniters = 0) OR the counter equals the
total OR the force-refresh flag is set.  Consequently, with
mininterval = 0.1 and miniters = 1 and no force-refresh priming, two
update calls issued less than 0.1 seconds apart produce at most one
frame write unless a call reaches the total or the bar erases on
completion (leave = false) with its counter beyond the total (the
erase frame does not refresh the recorded render time). -/
theorem c2_throttle_gates :
    (∀ (b : Bar) (a : Nat) (now : ℚ) (cols : Nat) (b2 : Bar) (w : Bool),
        b.disable = false → b.update a now cols = some (b2, w) →
        (w = true ↔ updateWriteCondSpec b a now)) ∧
    (∀ (b : Bar) (a1 a2 : Nat) (now1 now2 : ℚ) (c1 c2 : Nat)
        (b1 b2 : Bar) (w1 w2 : Bool),
        b.disable = false → b.max_fps = false →
        b.internal.force_refresh = false →
        b.mininterval = 1 / 10 → b.miniters = 1 →
        now1 ≤ now2 → now2 - now1 < 1 / 10 →
        b.update a1 now1 c1 = some (b1, w1) →
        b1.update a2 now2 c2 = some (b2, w2) →
        w1 = true → w2 = true →
        b1.n = b.total ∨ b2.n = b.total
          ∨ (b.leave = false ∧ 0 < b.total ∧ b.total < b1.n)) := by
  constructor
  · intro b a now cols b2 w hd h
    exact (update_fields b a now cols b2 w h).2.2.2.2.2.2.2.2.2.2.2.2 hd
  · intro b a1 a2 now1 now2 c1 c2 b1 b2 w1 w2 hd hfps hforce hmin hmini
      hle hlt h1 h2 hw1 hw2
    obtain ⟨u1total, u1leave, u1disable, u1min, _u1delay, u1fps, _u1init, u1n,
      u1started, _u1timer, u1force, u1elapsed, _u1iff⟩ :=
      update_fields b a1 now1 c1 b1 w1 h1
    by_cases hn1 : b1.n = b.total
    · exact Or.inl hn1
    rcases u1elapsed hw1 with he1 | ⟨ht0, htle, hlf, _⟩
    · obtain ⟨_, _, _, _, _, _, _, u2n, _, u2timer, _, _, u2iff⟩ :=
        update_fields b1 a2 now2 c2 b2 w2 h2
      have hspec := (u2iff (by rw [u1disable]; exact hd)).mp hw2
      unfold updateWriteCondSpec at hspec
      rw [u1started] at hspec
      simp only [if_true] at hspec
      rcases hspec with ⟨_, htime, _⟩ | hn2 | hfr2
      · exfalso
        rw [he1, u1min, hmin] at htime
        have : now2 - b1.internal.timer - (now1 - b1.internal.timer)
            = now2 - now1 := by ring
        rw [this] at htime
        linarith
      · refine Or.inr (Or.inl ?_)
        rw [← u1total, u2n, u1started]
        simpa using hn2
      · exfalso
        rcases hfr2 with hx | ⟨hx, _⟩
        · rw [u1force, hforce, hfps] at hx
          simp at hx
        · cases hx
    · refine Or.inr (Or.inr ⟨hlf, Nat.pos_of_ne_zero ht0, ?_⟩)
      omega

/-- The counter recorded by one refresh call on a started bar is the
counter of the bar before the call: refresh updates by an amount of 0
and the started flag makes the increment start from the current
counter. -/
lemma refresh_n_started (b : Bar) (now : ℚ) (cols : Nat) (b2 : Bar) (w : Bool)
    (hst : b.internal.started = true) (h : b.refresh now cols = some (b2, w)) :
    b2.n = b.n := by
  unfold Bar.refresh at h
  dsimp only at h
  cases hu : Bar.update
      { b with internal := { b.internal with force_refresh := true } } 0 now cols with
  | none => rw [hu] at h; cases h
  | some pr =>
    obtain ⟨bb, w'⟩ := pr
    rw [hu] at h
    dsimp only at h
    cases h
    have hn := (update_fields _ 0 now cols bb w hu).2.2.2.2.2.2.2.1
    have hst1 : ({ b with internal :=
        { b.internal with force_refresh := true } } : Bar).internal.started = true := hst
    rw [hst1] at hn
    simp at hn
    exact hn

/-- Concrete bar for the C3 counterexample and witness: counter 5,
started, and disabled so that the redraw stage of set_position and
update writes no frame. -/
def c3CtrBar : Bar :=
  { Bar.default with
    total := 10
    disable := true
    n := 5
    internal := { BarInternal.default with started := true } }

/-- The bar c3CtrBar after set_position 3: only the counter changes,
dropping from 5 to 3. -/
def c3CtrAfter : Bar := { c3CtrBar with n := 3 }

/-- The bar c3CtrBar after an update of amount 1: the counter rises
from 5 to 6. -/
def c3WitAfter : Bar := { c3CtrBar with n := 6 }

/-- C3, counterexample: the claim quantifies over every public
operation and names set_position among them, but set_position
overwrites the counter with an arbitrary absolute value: on a started
bar with counter 5, set_position 3 drops the counter to 3 without any
reset. -/
theorem c3_set_position_counterexample :
    Op.isSetPositionOp (Op.setPositionOp 3 (0 : ℚ) 0) = true
    ∧ c3CtrBar.internal.started = true
    ∧ step c3CtrBar (Op.setPositionOp 3 0 0) = some c3CtrAfter
    ∧ c3CtrAfter.n < c3CtrBar.n :=
  ⟨rfl, rfl, rfl, by decide⟩

/-- C3 (amended): on a started bar, every public operation other than
set_position (which overwrites the counter with an arbitrary absolute
value) leaves the counter n unchanged or larger, including reset
itself, which does not touch n; reset clears the started flag while
keeping the counter; and the next update call after a reset restarts
the timer at that call's clock reading, re-initializes the counter to
the configured initial value plus the update amount, and sets the
started flag again. -/
theorem c3_counter_monotone_and_reset :
    (∀ (b : Bar) (op : Op) (b2 : Bar),
      b.internal.started = true → Op.isSetPositionOp op = false →
      step b op = some b2 → b.n ≤ b2.n)
    ∧ (∀ (b : Bar) (t : Option Nat),
        (b.reset t).internal.started = false ∧ (b.reset t).n = b.n)
    ∧ (∀ (b : Bar) (t : Option Nat) (a : Nat) (now : ℚ) (cols : Nat)
        (b2 : Bar) (w : Bool),
        (b.reset t).update a now cols = some (b2, w) →
        b2.n = b.initial + a ∧ b2.internal.timer = now
          ∧ b2.internal.started = true) := by
  refine ⟨?_, ?_, ?_⟩
  · intro b op b2 hst hnsp h
    cases op with
    | updateOp a now cols =>
      simp only [step] at h
      cases hu : b.update a now cols with
      | none => rw [hu] at h; cases h
      | some pr =>
        obtain ⟨bb, w⟩ := pr
        rw [hu] at h
        dsimp only at h
        cases h
        have hn := (update_fields b a now cols b2 w hu).2.2.2.2.2.2.2.1
        rw [hst] at hn
        simp at hn
        omega
    | refreshOp now cols =>
      simp only [step] at h
      cases hu : b.refresh now cols with
      | none => rw [hu] at h; cases h
      | some pr =>
        obtain ⟨bb, w⟩ := pr
        rw [hu] at h
        dsimp only at h
        cases h
        exact Nat.le_of_eq (refresh_n_started b now cols b2 w hst hu).symm
    | clearOp cols =>
      simp only [step] at h
      cases h
      exact Nat.le_refl _
    | writeOp text now cols =>
      simp only [step] at h
      unfold Bar.writeMessage at h
      by_cases hl : b.leave = true
      · rw [if_pos hl] at h
        cases hu : b.refresh now cols with
        | none => rw [hu] at h; cases h
        | some pr =>
          obtain ⟨bb, w⟩ := pr
          rw [hu] at h
          dsimp only at h
          cases h
          exact Nat.le_of_eq (refresh_n_started b now cols b2 w hst hu).symm
      · rw [if_neg hl] at h
        cases h
        exact Nat.le_refl _
    | inputOp p line now cols =>
      simp only [step] at h
      unfold Bar.inputModel at h
      by_cases hl : b.leave = true
      · rw [if_pos hl] at h
        cases hu : b.refresh now cols with
        | none => rw [hu] at h; cases h
        | some pr =>
          obtain ⟨bb, w⟩ := pr
          rw [hu] at h
          dsimp only at h
          cases h
          exact Nat.le_of_eq (refresh_n_started b now cols b2 w hst hu).symm
      · rw [if_neg hl] at h
        cases h
        exact Nat.le_refl _
    | setPositionOp pos now cols =>
      simp [Op.isSetPositionOp] at hnsp
    | setDescriptionOp d =>
      simp only [step] at h
      cases h
      exact Nat.le_refl _
    | setPostfixOp p =>
      simp only [step] at h
      cases h
      exact Nat.le_refl _
    | setColourOp c =>
      simp only [step] at h
      cases h
      unfold Bar.set_colour
      split
      · exact Nat.le_refl _
      · exact Nat.le_refl _
    | setCharsetOp cs =>
      simp only [step] at h
      cases h
      exact Nat.le_refl _
    | monitorTickOp snap now cols =>
      simp only [step] at h
      unfold Bar.stdMonitorWake at h
      by_cases hsn : b.n = snap
      · rw [if_pos hsn] at h
        cases hu : b.refresh now cols with
        | none => rw [hu] at h; cases h
        | some pr =>
          obtain ⟨bb, w⟩ := pr
          rw [hu] at h
          dsimp only at h
          cases h
          exact Nat.le_of_eq (refresh_n_started b now cols b2 w hst hu).symm
      · rw [if_neg hsn] at h
        dsimp only at h
        cases h
        exact Nat.le_refl _
    | resetOp t =>
      simp only [step] at h
      cases h
      cases t with
      | none => exact Nat.le_refl _
      | some x => exact Nat.le_refl _
  · intro b t
    cases t with
    | none => exact ⟨rfl, rfl⟩
    | some x => exact ⟨rfl, rfl⟩
  · intro b t a now cols b2 w h
    have hf := update_fields (b.reset t) a now cols b2 w h
    have hst : (b.reset t).internal.started = false := by
      cases t with
      | none => rfl
      | some x => rfl
    have hini : (b.reset t).initial = b.initial := by
      cases t with
      | none => rfl
      | some x => rfl
    refine ⟨?_, ?_, hf.2.2.2.2.2.2.2.2.1⟩
    · have hn := hf.2.2.2.2.2.2.2.1
      rw [hst] at hn
      simp at hn
      rw [hn, hini]
    · have ht := hf.2.2.2.2.2.2.2.2.2.1
      rw [hst] at ht
      simpa using ht

/-- Concrete enabled started bar for the C2 witness: counter 5,
total 10, timer at epoch 0, all other options at their defaults. -/
def c2WitBar : Bar :=
  { Bar.default with
    total := 10
    n := 5
    internal := { BarInternal.default with started := true } }

/-- The bar c2WitBar after an update of amount 1 at clock reading 0:
only the counter changes; the time gate fails (no time has passed
since the timer reading), the counter stays below the total and no
force-refresh flag is set, so no frame is written. -/
def c2WitAfter : Bar := { c2WitBar with n := 6 }

/-- Witness for C2: the gate characterisation applied to a concrete
enabled started bar whose update at clock reading 0 writes no frame,
every hypothesis discharged by evaluation. -/
theorem c2_throttle_gates_witness :
    c2WitBar.disable = false
    ∧ c2WitBar.update 1 0 0 = some (c2WitAfter, false)
    ∧ ((false : Bool) = true ↔ updateWriteCondSpec c2WitBar 1 0) := by
  have hu : c2WitBar.update 1 0 0 = some (c2WitAfter, false) := by
    norm_num [Bar.update, Bar.updateStart, Bar.updateCore, c2WitBar, c2WitAfter,
      Bar.default, BarInternal.default]
  exact ⟨rfl, hu, c2_throttle_gates.1 c2WitBar 1 0 0 c2WitAfter false rfl hu⟩

/-- Witness for C3: the monotonicity part applied to an update of
amount 1 on a concrete started bar, whose counter rises from 5 to 6,
with every hypothesis discharged by evaluation. -/
theorem c3_counter_monotone_and_reset_witness :
    c3CtrBar.internal.started = true
    ∧ Op.isSetPositionOp (Op.updateOp 1 (0 : ℚ) 0) = false
    ∧ step c3CtrBar (Op.updateOp 1 0 0) = some c3WitAfter
    ∧ c3CtrBar.n ≤ c3WitAfter.n :=
  ⟨rfl, rfl, rfl,
    c3_counter_monotone_and_reset.1 c3CtrBar (Op.updateOp 1 0 0) c3WitAfter rfl rfl rfl⟩

end Kdam
